import Mathlib

/-!
# Verification of the hydra terminal multiplexer core

Shallow embedding of the hydra source (TypeScript) into Lean 4:

* the event-sourced state store (`src/state/session-store.ts` reducer, the
  variant carrying `scrollOffset`, whose action cases are shared verbatim
  with the `AppStore` reducer variant),
* the prefix-key input router (`services/input-handler.ts`, class
  `InputHandler`) and the hook-based variant (`hooks/use-input-router.ts`),
* the screen compositor's chrome formatting and pass-through filtering
  (`services/screen-renderer.ts`, class `ScreenRenderer`),
* the ANSI primitives (`utils/ansi.ts`) and constants (`utils/constants.ts`).

JavaScript strings are embedded as `List Char` (all characters involved are
in the BMP, so UTF-16 length and `List Char` length agree).  JavaScript
regular-expression global replacement is embedded as a left-to-right
non-overlapping scan that never rescans the replacement text, which is the
semantics of `String.prototype.replace` with a `g`-flagged pattern.
A JavaScript runtime `TypeError` (reading `.id` of `undefined`) is modelled
by `Option`: the reducer returns `none` exactly where the source would throw.
-/

set_option maxHeartbeats 1000000

namespace Hydra

/-! ## utils/constants.ts -/

/-- `export const CTRL_B = "\x02"` from `utils/constants.ts`. -/
def CTRL_B : List Char := ['\x02']

/-- `export const PREFIX_TIMEOUT_MS = 500` from `utils/constants.ts`. -/
def PREFIX_TIMEOUT_MS : Nat := 500

/-- `export const CHROME_ROWS = 3` from `utils/constants.ts`. -/
def CHROME_ROWS : Nat := 3

/-! ## State store data model (`state/types.ts`)

The `terminal` and `pty` fields of a session are opaque foreign handles
(`@xterm/headless` terminal, `node-pty` child).  The reducer and the input
router never inspect them — they are only carried along by object spread —
so the embedding records the inspected fields: `id`, `branch`,
`worktreePath` and `exitCode`. -/

structure Session where
  id : String
  branch : String
  worktreePath : String
  exitCode : Option Int
deriving DecidableEq, Repr

/-- The union of the UI modes appearing across the source
(`"normal" | "creating-session" | "confirming-close"` in `state/types.ts`,
plus the git/sync/workspace modes matched by `input-handler.ts` and
`screen-renderer.ts`). -/
inductive AppMode
  | normal
  | creatingSession
  | confirmingClose
  | gitSelect
  | gitMessage
  | gitRunning
  | gitResult
  | syncRunning
  | syncResult
  | workspaceCreating
deriving DecidableEq, Repr

/-- Does the mode's string tag start with `"git-"` (used by
`formatChromeLine`'s `state.mode.startsWith("git-")`)? -/
def AppMode.isGit : AppMode → Bool
  | .gitSelect | .gitMessage | .gitRunning | .gitResult => true
  | _ => false

structure AppState where
  sessions : List Session
  activeSessionId : Option String
  mode : AppMode
  scrollOffset : Nat
deriving DecidableEq, Repr

inductive AppAction
  | addSession (session : Session)
  | removeSession (sessionId : String)
  | setActive (sessionId : String)
  | nextTab
  | prevTab
  | jumpToTab (index : Int)
  | setMode (mode : AppMode)
  | sessionExited (sessionId : String) (exitCode : Int)
  | scrollUp (lines : Nat)
  | scrollDown (lines : Nat)
  | resetScroll
deriving DecidableEq, Repr

/-- `initialState` from `state/session-store.ts`. -/
def initialState : AppState :=
  { sessions := [], activeSessionId := none, mode := .normal, scrollOffset := 0 }

/-- JavaScript `Array.prototype.findIndex`: index of the first element
satisfying the predicate, `-1` if there is none. -/
def findIndexJs (p : α → Bool) (l : List α) : Int :=
  match l.findIdx? p with
  | some i => (i : Int)
  | none => -1

/-- JavaScript array subscript `l[i]`: `undefined` (here `none`) for an
out-of-range or negative index. -/
def jsGet? (l : List α) (i : Int) : Option α :=
  if i < 0 then none else l.get? i.toNat

/-- The reducer `appReducer` from `state/session-store.ts`.

Returns `none` exactly where the JavaScript would throw a `TypeError`:
in `REMOVE_SESSION`, when `state.activeSessionId === action.sessionId` but
that id is not in the list and the list is non-empty,
`remaining[Math.min(-1, remaining.length - 1)]!.id` reads `.id` of
`undefined`. -/
def appReducer (state : AppState) (action : AppAction) : Option AppState :=
  match action with
  | .addSession session =>
      some { state with
        sessions := state.sessions ++ [session]
        activeSessionId := some session.id
        mode := .normal
        scrollOffset := 0 }
  | .removeSession sessionId =>
      let remaining := state.sessions.filter (fun s => s.id != sessionId)
      if state.activeSessionId = some sessionId then
        if remaining.length > 0 then
          let oldIndex := findIndexJs (fun s => s.id == sessionId) state.sessions
          match jsGet? remaining (min oldIndex ((remaining.length : Int) - 1)) with
          | some sess =>
              some { state with
                sessions := remaining
                activeSessionId := some sess.id
                mode := .normal
                scrollOffset := 0 }
          | none => none
        else
          some { state with
            sessions := remaining
            activeSessionId := none
            mode := .normal
            scrollOffset := 0 }
      else
        some { state with
          sessions := remaining
          mode := .normal
          scrollOffset := 0 }
  | .setActive sessionId =>
      some { state with activeSessionId := some sessionId, scrollOffset := 0 }
  | .nextTab =>
      if state.sessions.length = 0 then some state
      else
        let idx := findIndexJs (fun s => some s.id == state.activeSessionId) state.sessions
        let next := (idx + 1) % (state.sessions.length : Int)
        match jsGet? state.sessions next with
        | some sess =>
            some { state with activeSessionId := some sess.id, scrollOffset := 0 }
        | none => none
  | .prevTab =>
      if state.sessions.length = 0 then some state
      else
        let idx := findIndexJs (fun s => some s.id == state.activeSessionId) state.sessions
        let prev := (idx - 1 + (state.sessions.length : Int)) % (state.sessions.length : Int)
        match jsGet? state.sessions prev with
        | some sess =>
            some { state with activeSessionId := some sess.id, scrollOffset := 0 }
        | none => none
  | .jumpToTab index =>
      match jsGet? state.sessions index with
      | none => some state
      | some sess =>
          some { state with activeSessionId := some sess.id, scrollOffset := 0 }
  | .setMode mode =>
      some { state with mode := mode }
  | .sessionExited sessionId exitCode =>
      some { state with
        sessions := state.sessions.map (fun s =>
          if s.id = sessionId then { s with exitCode := some exitCode } else s) }
  | .scrollUp lines =>
      some { state with scrollOffset := state.scrollOffset + lines }
  | .scrollDown lines =>
      some { state with scrollOffset := state.scrollOffset - lines }
  | .resetScroll =>
      some { state with scrollOffset := 0 }

/-- States reachable from `initialState` by dispatched actions
(a step exists only when the reducer does not throw). -/
inductive Reachable : AppState → Prop
  | init : Reachable initialState
  | step {s : AppState} {a : AppAction} {s' : AppState} :
      Reachable s → appReducer s a = some s' → Reachable s'

/-- The active invariant of the specification: a non-empty session list has
an active id that belongs to it, an empty list has no active id. -/
def ActiveInvariant (s : AppState) : Prop :=
  (s.sessions ≠ [] → ∃ sess ∈ s.sessions, s.activeSessionId = some sess.id) ∧
  (s.sessions = [] → s.activeSessionId = none)

instance (s : AppState) : Decidable (ActiveInvariant s) := by
  unfold ActiveInvariant; infer_instance

/-- A dispatched action is *id-checked* when any `SET_ACTIVE` it performs
carries the id of a session present in the state it is dispatched against. -/
def IdCheckedAction (s : AppState) : AppAction → Prop
  | .setActive sessionId => sessionId ∈ s.sessions.map Session.id
  | _ => True

/-- States reachable from `initialState` by dispatched actions whose
`SET_ACTIVE` ids are all present at dispatch time. -/
inductive ReachableChecked : AppState → Prop
  | init : ReachableChecked initialState
  | step {s : AppState} {a : AppAction} {s' : AppState} :
      ReachableChecked s → IdCheckedAction s a → appReducer s a = some s' →
      ReachableChecked s'

theorem jsGet?_mem {l : List α} {i : Int} {x : α} (h : jsGet? l i = some x) :
    x ∈ l := by
  unfold jsGet? at h
  split at h
  · exact absurd h (by simp)
  · exact List.get?_mem h

theorem findIdx?_eq_some_findIdx {p : α → Bool} {l : List α}
    (h : ∃ x ∈ l, p x) : l.findIdx? p = some (l.findIdx p) := by
  induction l with
  | nil => simp at h
  | cons a t ih =>
      by_cases ha : p a
      · simp [List.findIdx?_cons, List.findIdx_cons, ha]
      · obtain ⟨x, hx, hpx⟩ := h
        rcases List.mem_cons.mp hx with rfl | hxt
        · exact absurd hpx ha
        · simp [List.findIdx?_cons, List.findIdx_cons, ha, ih ⟨x, hxt, hpx⟩]

theorem findIndexJs_of_exists {p : α → Bool} {l : List α}
    (h : ∃ x ∈ l, p x) : findIndexJs p l = (l.findIdx p : Int) := by
  unfold findIndexJs
  rw [findIdx?_eq_some_findIdx h]

theorem findIdx_lt_length_of_exists' {p : α → Bool} {l : List α}
    (h : ∃ x ∈ l, p x) : l.findIdx p < l.length := by
  induction l with
  | nil => simp at h
  | cons a t ih =>
      by_cases ha : p a
      · simp [List.findIdx_cons, ha]
      · obtain ⟨x, hx, hpx⟩ := h
        rcases List.mem_cons.mp hx with rfl | hxt
        · exact absurd hpx ha
        · simpa [List.findIdx_cons, ha, Nat.succ_lt_succ_iff] using ih ⟨x, hxt, hpx⟩

/-- One dispatched id-checked action preserves the active invariant. -/
theorem activeInvariant_step {s : AppState} {a : AppAction} {s' : AppState}
    (hinv : ActiveInvariant s) (hgood : IdCheckedAction s a)
    (hstep : appReducer s a = some s') : ActiveInvariant s' := by
  cases a with
  | addSession sess =>
      simp only [appReducer, Option.some.injEq] at hstep
      subst hstep
      refine ⟨fun _ => ⟨sess, by simp, rfl⟩, fun h => by simp at h⟩
  | removeSession sid =>
      simp only [appReducer] at hstep
      by_cases hact : s.activeSessionId = some sid
      · rw [if_pos hact] at hstep
        by_cases hrem : (s.sessions.filter (fun t => t.id != sid)).length > 0
        · rw [if_pos hrem] at hstep
          cases hj : jsGet? (s.sessions.filter (fun t => t.id != sid))
              (min (findIndexJs (fun t => t.id == sid) s.sessions)
                ((s.sessions.filter (fun t => t.id != sid)).length - 1)) with
          | none => rw [hj] at hstep; simp at hstep
          | some sess =>
              rw [hj] at hstep
              simp only [Option.some.injEq] at hstep
              subst hstep
              refine ⟨fun _ => ⟨sess, jsGet?_mem hj, rfl⟩, fun h => ?_⟩
              have h' : s.sessions.filter (fun t => t.id != sid) = [] := h
              rw [h'] at hrem; simp at hrem
        · rw [if_neg hrem] at hstep
          simp only [Option.some.injEq] at hstep
          subst hstep
          have hre : s.sessions.filter (fun t => t.id != sid) = [] :=
            List.length_eq_zero.mp (by omega)
          exact ⟨fun h => absurd hre h, fun _ => rfl⟩
      · rw [if_neg hact] at hstep
        simp only [Option.some.injEq] at hstep
        subst hstep
        by_cases hempty : s.sessions = []
        · refine ⟨fun h => absurd (by simp [hempty]) h, fun _ => hinv.2 hempty⟩
        · obtain ⟨a0, ha0, hact0⟩ := hinv.1 hempty
          have hne : a0.id ≠ sid := fun hid => hact (hact0.trans (by rw [hid]))
          have ha0f : a0 ∈ s.sessions.filter (fun t => t.id != sid) :=
            List.mem_filter.mpr ⟨ha0, by simpa using hne⟩
          refine ⟨fun _ => ⟨a0, ha0f, hact0⟩, fun h => ?_⟩
          have h' : s.sessions.filter (fun t => t.id != sid) = [] := h
          rw [h'] at ha0f; simp at ha0f
  | setActive sid =>
      simp only [appReducer, Option.some.injEq] at hstep
      subst hstep
      simp only [IdCheckedAction] at hgood
      obtain ⟨t, ht, hid⟩ := List.mem_map.mp hgood
      refine ⟨fun _ => ⟨t, ht, by rw [hid]⟩, fun h => ?_⟩
      have h' : s.sessions = [] := h
      rw [h'] at ht; simp at ht
  | nextTab =>
      simp only [appReducer] at hstep
      by_cases hlen : s.sessions.length = 0
      · rw [if_pos hlen] at hstep
        simp only [Option.some.injEq] at hstep
        subst hstep; exact hinv
      · rw [if_neg hlen] at hstep
        cases hj : jsGet? s.sessions
            ((findIndexJs (fun t => some t.id == s.activeSessionId) s.sessions + 1) %
              (s.sessions.length : Int)) with
        | none => rw [hj] at hstep; simp at hstep
        | some sess =>
            rw [hj] at hstep
            simp only [Option.some.injEq] at hstep
            subst hstep
            refine ⟨fun _ => ⟨sess, jsGet?_mem hj, rfl⟩, fun h => ?_⟩
            have h' : s.sessions = [] := h
            simp [h'] at hlen
  | prevTab =>
      simp only [appReducer] at hstep
      by_cases hlen : s.sessions.length = 0
      · rw [if_pos hlen] at hstep
        simp only [Option.some.injEq] at hstep
        subst hstep; exact hinv
      · rw [if_neg hlen] at hstep
        cases hj : jsGet? s.sessions
            ((findIndexJs (fun t => some t.id == s.activeSessionId) s.sessions - 1 +
                (s.sessions.length : Int)) % (s.sessions.length : Int)) with
        | none => rw [hj] at hstep; simp at hstep
        | some sess =>
            rw [hj] at hstep
            simp only [Option.some.injEq] at hstep
            subst hstep
            refine ⟨fun _ => ⟨sess, jsGet?_mem hj, rfl⟩, fun h => ?_⟩
            have h' : s.sessions = [] := h
            simp [h'] at hlen
  | jumpToTab i =>
      simp only [appReducer] at hstep
      cases hj : jsGet? s.sessions i with
      | none =>
          rw [hj] at hstep
          simp only [Option.some.injEq] at hstep
          subst hstep; exact hinv
      | some sess =>
          rw [hj] at hstep
          simp only [Option.some.injEq] at hstep
          subst hstep
          refine ⟨fun _ => ⟨sess, jsGet?_mem hj, rfl⟩, fun h => ?_⟩
          have h' : s.sessions = [] := h
          have hmem := jsGet?_mem hj
          rw [h'] at hmem; simp at hmem
  | setMode m =>
      simp only [appReducer, Option.some.injEq] at hstep
      subst hstep
      exact ⟨fun h => hinv.1 h, fun h => hinv.2 h⟩
  | sessionExited sid c =>
      simp only [appReducer, Option.some.injEq] at hstep
      subst hstep
      constructor
      · intro h
        have hne : s.sessions ≠ [] := fun he => by simp [he] at h
        obtain ⟨a0, ha0, hact0⟩ := hinv.1 hne
        refine ⟨if a0.id = sid then { a0 with exitCode := some c } else a0,
          List.mem_map.mpr ⟨a0, ha0, rfl⟩, ?_⟩
        by_cases hid : a0.id = sid <;> simp [hid, hact0]
      · intro h
        have : s.sessions = [] := by simpa using h
        exact hinv.2 this
  | scrollUp n =>
      simp only [appReducer, Option.some.injEq] at hstep
      subst hstep
      exact ⟨fun h => hinv.1 h, fun h => hinv.2 h⟩
  | scrollDown n =>
      simp only [appReducer, Option.some.injEq] at hstep
      subst hstep
      exact ⟨fun h => hinv.1 h, fun h => hinv.2 h⟩
  | resetScroll =>
      simp only [appReducer, Option.some.injEq] at hstep
      subst hstep
      exact ⟨fun h => hinv.1 h, fun h => hinv.2 h⟩

/-- A concrete session used by example states. -/
def sessA : Session := { id := "a", branch := "main", worktreePath := "/w/a", exitCode := none }

/-- C2 (amended): for every state reachable from the initial store state by
dispatched actions in which every `SET_ACTIVE` carries an id present in the
sessions list at dispatch time, a non-empty sessions list implies
`active_session_id` is the id of a listed session, and an empty sessions
list implies `active_session_id` is `None`.  (The restriction on
`SET_ACTIVE` is necessary: the reducer sets the active id unconditionally,
see the counterexample.) -/
theorem active_invariant_of_reachableChecked (s : AppState)
    (h : ReachableChecked s) : ActiveInvariant s := by
  induction h with
  | init => exact ⟨fun h => absurd rfl h, fun _ => rfl⟩
  | step _ hgood hstep ih => exact activeInvariant_step ih hgood hstep

/-- Witness for C2's amended theorem: the invariant evaluated on the state
reached by dispatching `ADD_SESSION` on the initial state. -/
theorem active_invariant_of_reachableChecked_witness :
    ActiveInvariant { sessions := [sessA], activeSessionId := some "a",
                      mode := .normal, scrollOffset := 0 } :=
  active_invariant_of_reachableChecked _
    (.step (a := .addSession sessA) .init trivial rfl)

/-- C2 counterexample: dispatching `ADD_SESSION(a)` then `SET_ACTIVE("ghost")`
(an id not in the list) reaches a state with a non-empty sessions list whose
active id belongs to no session, refuting the claimed invariant for
arbitrary dispatched actions. -/
theorem active_invariant_counterexample :
    Reachable { sessions := [sessA], activeSessionId := some "ghost",
                mode := .normal, scrollOffset := 0 } ∧
    ¬ ActiveInvariant { sessions := [sessA], activeSessionId := some "ghost",
                        mode := .normal, scrollOffset := 0 } :=
  ⟨.step (a := .setActive "ghost") (.step (a := .addSession sessA) .init rfl) rfl,
   by decide⟩

/-- C5 (amended): `SET_ACTIVE(id)` unconditionally sets `active_session_id`
to `id` and resets `scroll_offset` to 0, whether or not `id` is the id of a
session present in the sessions list. -/
theorem setActive_unconditional (s : AppState) (sid : String) :
    appReducer s (.setActive sid) =
      some { s with activeSessionId := some sid, scrollOffset := 0 } := rfl

/-- C5 counterexample: dispatching `SET_ACTIVE("ghost")` on a state whose
only session has id `"a"` changes `active_session_id` to `"ghost"`, although
`"ghost"` is not in the sessions list — the claim said the active id would
be unchanged. -/
theorem setActive_missing_id_counterexample :
    appReducer { sessions := [sessA], activeSessionId := some "a",
                 mode := .normal, scrollOffset := 0 } (.setActive "ghost") =
      some { sessions := [sessA], activeSessionId := some "ghost",
             mode := .normal, scrollOffset := 0 } ∧
    "ghost" ∉ [sessA].map Session.id ∧
    some "ghost" ≠ some "a" := by decide

/-- Concrete sessions for the `[a,b,c]` removal scenario. -/
def sessTabA : Session := { id := "a", branch := "a", worktreePath := "/w/a", exitCode := none }

def sessTabB : Session := { id := "b", branch := "b", worktreePath := "/w/b", exitCode := none }

def sessTabC : Session := { id := "c", branch := "c", worktreePath := "/w/c", exitCode := none }

/-- Sessions `[a,b,c]` with `b` active. -/
def stABC : AppState :=
  { sessions := [sessTabA, sessTabB, sessTabC], activeSessionId := some "b",
    mode := .normal, scrollOffset := 0 }

/-- C4: for every state and every id present in the sessions list,
`REMOVE_SESSION(id)` removes the session with that id (the new list is the
filter by id) and the mode becomes Normal; when the removed id was the
active one, the new active session is the element at index
`min(old_index, remaining.len - 1)` of the remaining list (`None` if it
became empty), and when it was not, the active id is unchanged; in
particular from sessions `[a,b,c]` with active `b` the result is `[a,c]`
with active `c`. -/
theorem removeSession_semantics :
    (∀ (s : AppState) (sid : String),
      sid ∈ s.sessions.map Session.id →
      ∃ s', appReducer s (.removeSession sid) = some s' ∧
        s'.sessions = s.sessions.filter (fun t => t.id != sid) ∧
        s'.mode = .normal ∧
        (s.activeSessionId = some sid →
          s'.activeSessionId =
            (if s.sessions.filter (fun t => t.id != sid) = [] then none
             else ((s.sessions.filter (fun t => t.id != sid)).get?
                (min (s.sessions.findIdx (fun t => t.id == sid))
                  ((s.sessions.filter (fun t => t.id != sid)).length - 1))).map
                Session.id)) ∧
        (s.activeSessionId ≠ some sid →
          s'.activeSessionId = s.activeSessionId)) ∧
    appReducer stABC (.removeSession "b") =
      some { sessions := [sessTabA, sessTabC], activeSessionId := some "c",
             mode := .normal, scrollOffset := 0 } := by
  constructor
  · intro s sid hmem
    obtain ⟨t0, ht0, hid0⟩ := List.mem_map.mp hmem
    have hex : ∃ x ∈ s.sessions, (fun t => t.id == sid) x :=
      ⟨t0, ht0, by simp [hid0]⟩
    have hidx := findIndexJs_of_exists hex
    have hbound := findIdx_lt_length_of_exists' hex
    by_cases hact : s.activeSessionId = some sid
    · by_cases hl : s.sessions.filter (fun t => t.id != sid) = []
      · refine ⟨{ s with
            sessions := s.sessions.filter (fun t => t.id != sid)
            activeSessionId := none
            mode := .normal
            scrollOffset := 0 },
          ?_, rfl, rfl, fun _ => ?_, fun hne => absurd hact hne⟩
        · simp only [appReducer]
          rw [if_pos hact, if_neg (by simp [hl])]
        · simp [hl]
      · have hlen : 0 < (s.sessions.filter (fun t => t.id != sid)).length :=
          List.length_pos.mpr hl
        have hmin : (min ((s.sessions.findIdx (fun t => t.id == sid) : Int))
              (((s.sessions.filter (fun t => t.id != sid)).length : Int) - 1)).toNat =
            min (s.sessions.findIdx (fun t => t.id == sid))
              ((s.sessions.filter (fun t => t.id != sid)).length - 1) := by
          simp only [min_def]
          split <;> split <;> omega
        have hks : min (s.sessions.findIdx (fun t => t.id == sid))
              ((s.sessions.filter (fun t => t.id != sid)).length - 1) <
            (s.sessions.filter (fun t => t.id != sid)).length := by omega
        have hjs : jsGet? (s.sessions.filter (fun t => t.id != sid))
              (min ((s.sessions.findIdx (fun t => t.id == sid) : Int))
                (((s.sessions.filter (fun t => t.id != sid)).length : Int) - 1)) =
            (s.sessions.filter (fun t => t.id != sid)).get?
              (min (s.sessions.findIdx (fun t => t.id == sid))
                ((s.sessions.filter (fun t => t.id != sid)).length - 1)) := by
          unfold jsGet?
          rw [if_neg (by omega), hmin]
        have hget := List.get?_eq_get hks
        refine ⟨{ s with
            sessions := s.sessions.filter (fun t => t.id != sid)
            activeSessionId :=
              some (((s.sessions.filter (fun t => t.id != sid)).get
                ⟨min (s.sessions.findIdx (fun t => t.id == sid))
                  ((s.sessions.filter (fun t => t.id != sid)).length - 1),
                 hks⟩).id)
            mode := .normal
            scrollOffset := 0 },
          ?_, rfl, rfl, fun _ => ?_, fun hne => absurd hact hne⟩
        · simp only [appReducer]
          rw [if_pos hact, if_pos hlen, hidx, hjs, hget]
        · rw [if_neg hl, hget]
          rfl
    · refine ⟨{ s with
          sessions := s.sessions.filter (fun t => t.id != sid)
          mode := .normal
          scrollOffset := 0 },
        ?_, rfl, rfl, fun h => absurd h hact, fun _ => rfl⟩
      simp only [appReducer]
      rw [if_neg hact]
  · decide

/-- Witness for C4's theorem: applied to the `[a,b,c]`, active `b` scenario. -/
theorem removeSession_semantics_witness :
    ∃ s', appReducer stABC (.removeSession "b") = some s' ∧
      s'.sessions = stABC.sessions.filter (fun t => t.id != "b") ∧
      s'.mode = .normal ∧
      (stABC.activeSessionId = some "b" →
        s'.activeSessionId =
          (if stABC.sessions.filter (fun t => t.id != "b") = [] then none
           else ((stABC.sessions.filter (fun t => t.id != "b")).get?
              (min (stABC.sessions.findIdx (fun t => t.id == "b"))
                ((stABC.sessions.filter (fun t => t.id != "b")).length - 1))).map
              Session.id)) ∧
      (stABC.activeSessionId ≠ some "b" →
        s'.activeSessionId = stABC.activeSessionId) :=
  removeSession_semantics.1 stABC "b" (by decide)

/-- C6 (amended): every action other than `SESSION_EXITED` that changes the
sessions list or the active session id leaves `scroll_offset = 0`;
`SESSION_EXITED` changes the sessions list (it sets the exited session's
`exit_code`) but leaves `scroll_offset` untouched. -/
theorem scroll_reset_on_change (s : AppState) (a : AppAction) (s' : AppState)
    (hstep : appReducer s a = some s')
    (hchange : s'.sessions ≠ s.sessions ∨ s'.activeSessionId ≠ s.activeSessionId)
    (hnotexit : ∀ sid c, a ≠ .sessionExited sid c) :
    s'.scrollOffset = 0 := by
  cases a with
  | addSession sess =>
      simp only [appReducer, Option.some.injEq] at hstep
      subst hstep; rfl
  | removeSession sid =>
      simp only [appReducer] at hstep
      by_cases hact : s.activeSessionId = some sid
      · rw [if_pos hact] at hstep
        by_cases hrem : (s.sessions.filter (fun t => t.id != sid)).length > 0
        · rw [if_pos hrem] at hstep
          cases hj : jsGet? (s.sessions.filter (fun t => t.id != sid))
              (min (findIndexJs (fun t => t.id == sid) s.sessions)
                ((s.sessions.filter (fun t => t.id != sid)).length - 1)) with
          | none => rw [hj] at hstep; simp at hstep
          | some sess =>
              rw [hj] at hstep
              simp only [Option.some.injEq] at hstep
              subst hstep; rfl
        · rw [if_neg hrem] at hstep
          simp only [Option.some.injEq] at hstep
          subst hstep; rfl
      · rw [if_neg hact] at hstep
        simp only [Option.some.injEq] at hstep
        subst hstep; rfl
  | setActive sid =>
      simp only [appReducer, Option.some.injEq] at hstep
      subst hstep; rfl
  | nextTab =>
      simp only [appReducer] at hstep
      by_cases hlen : s.sessions.length = 0
      · rw [if_pos hlen] at hstep
        simp only [Option.some.injEq] at hstep
        subst hstep
        rcases hchange with h | h <;> exact absurd rfl h
      · rw [if_neg hlen] at hstep
        cases hj : jsGet? s.sessions
            ((findIndexJs (fun t => some t.id == s.activeSessionId) s.sessions + 1) %
              (s.sessions.length : Int)) with
        | none => rw [hj] at hstep; simp at hstep
        | some sess =>
            rw [hj] at hstep
            simp only [Option.some.injEq] at hstep
            subst hstep; rfl
  | prevTab =>
      simp only [appReducer] at hstep
      by_cases hlen : s.sessions.length = 0
      · rw [if_pos hlen] at hstep
        simp only [Option.some.injEq] at hstep
        subst hstep
        rcases hchange with h | h <;> exact absurd rfl h
      · rw [if_neg hlen] at hstep
        cases hj : jsGet? s.sessions
            ((findIndexJs (fun t => some t.id == s.activeSessionId) s.sessions - 1 +
                (s.sessions.length : Int)) % (s.sessions.length : Int)) with
        | none => rw [hj] at hstep; simp at hstep
        | some sess =>
            rw [hj] at hstep
            simp only [Option.some.injEq] at hstep
            subst hstep; rfl
  | jumpToTab i =>
      simp only [appReducer] at hstep
      cases hj : jsGet? s.sessions i with
      | none =>
          rw [hj] at hstep
          simp only [Option.some.injEq] at hstep
          subst hstep
          rcases hchange with h | h <;> exact absurd rfl h
      | some sess =>
          rw [hj] at hstep
          simp only [Option.some.injEq] at hstep
          subst hstep; rfl
  | setMode m =>
      simp only [appReducer, Option.some.injEq] at hstep
      subst hstep
      rcases hchange with h | h <;> exact absurd rfl h
  | sessionExited sid c => exact absurd rfl (hnotexit sid c)
  | scrollUp n =>
      simp only [appReducer, Option.some.injEq] at hstep
      subst hstep
      rcases hchange with h | h <;> exact absurd rfl h
  | scrollDown n =>
      simp only [appReducer, Option.some.injEq] at hstep
      subst hstep
      rcases hchange with h | h <;> exact absurd rfl h
  | resetScroll =>
      simp only [appReducer, Option.some.injEq] at hstep
      subst hstep; rfl

/-- Witness for C6's amended theorem: `ADD_SESSION` on the initial state
changes the sessions list and indeed leaves `scroll_offset = 0`. -/
theorem scroll_reset_on_change_witness :
    (AppState.mk [sessA] (some "a") .normal 0).scrollOffset = 0 :=
  scroll_reset_on_change initialState (.addSession sessA)
    (AppState.mk [sessA] (some "a") .normal 0) rfl
    (.inl (by decide)) (fun sid c => by simp)

/-- State with a non-zero scroll offset, for the C6 counterexample. -/
def stScroll3 : AppState :=
  { sessions := [sessA], activeSessionId := some "a", mode := .normal, scrollOffset := 3 }

/-- C6 counterexample: dispatching `SESSION_EXITED("a", 1)` on a state with
`scroll_offset = 3` changes the sessions list (the session's `exit_code`
becomes 1) yet the resulting `scroll_offset` is still 3, not 0. -/
theorem session_exited_keeps_scroll_counterexample :
    appReducer stScroll3 (.sessionExited "a" 1) =
      some { sessions := [{ sessA with exitCode := some 1 }],
             activeSessionId := some "a", mode := .normal, scrollOffset := 3 } ∧
    ([{ sessA with exitCode := some 1 }] : List Session) ≠ stScroll3.sessions ∧
    (3 : Nat) ≠ 0 := by decide

/-! ## Input router (`services/input-handler.ts`, class `InputHandler`)

The router's observable effects are PTY writes, callback invocations and
store dispatches; `RouterOutput` records them in program order.  The
router-local mutable fields `prefixActive` and `prefixTimeout` become
`RouterState` (`timerArmed` is `prefixTimeout !== null`).  A stdin `data`
event becomes a call of `handleData`; the firing of the armed 500 ms prefix
timer becomes a call of `fireTimeout` (its body is the `setTimeout`
callback; it can only run while the timer is armed). -/

inductive RouterOutput
  | ptyWrite (sessionId : String) (data : List Char)
  | submit (sessionId : String)
  | onCreateSession
  | onCloseSession
  | onQuit
  | onGitOperations
  | onSync
  | onSessionCreatorInput (data : List Char)
  | onConfirmDialogInput (data : List Char)
  | onGitSelectInput (data : List Char)
  | onGitMessageInput (data : List Char)
  | onGitResultInput (data : List Char)
  | onSyncResultInput (data : List Char)
  | dispatch (action : AppAction)
deriving DecidableEq, Repr

structure RouterState where
  prefixActive : Bool
  timerArmed : Bool
deriving DecidableEq, Repr

/-- `getActiveSession` from `input-handler.ts`:
`state.sessions.find((s) => s.id === state.activeSessionId)`. -/
def getActiveSession (st : AppState) : Option Session :=
  st.sessions.find? (fun s => some s.id == st.activeSessionId)

/-- JavaScript `parseInt(key, 10)`: skip leading whitespace, optional sign,
then a maximal digit prefix; `none` is `NaN` (no digits found). -/
def parseIntJs (s : List Char) : Option Int :=
  let isWs : Char → Bool := fun c =>
    c == ' ' || c == '\t' || c == '\n' || c == '\r' || c == '\x0b' || c == '\x0c'
  let digitsVal : List Char → Option Int := fun r =>
    let ds := r.takeWhile Char.isDigit
    if ds = [] then none
    else some (ds.foldl (fun a c => a * 10 + ((c.toNat - '0'.toNat : Nat) : Int)) 0)
  match s.dropWhile isWs with
  | '-' :: rest => (digitsVal rest).map (fun n => -n)
  | '+' :: rest => digitsVal rest
  | rest => digitsVal rest

/-- `handlePrefixCommand` from `input-handler.ts` (class `InputHandler`). -/
def handlePrefixCommand (key : List Char) : List RouterOutput :=
  if key = ['q'] ∨ key = ['Q'] then [.onQuit]
  else if key = ['n'] ∨ key = ['N'] then [.onCreateSession]
  else if key = ['w'] ∨ key = ['W'] then [.onCloseSession]
  else if key = ['g'] ∨ key = ['G'] then [.onGitOperations]
  else if key = ['s'] ∨ key = ['S'] then [.onSync]
  else if key = [']'] then [.dispatch .nextTab]
  else if key = ['['] then [.dispatch .prevTab]
  else
    match parseIntJs key with
    | some num => if 1 ≤ num ∧ num ≤ 9 then [.dispatch (.jumpToTab (num - 1))] else []
    | none => []

/-- `handleData` from `input-handler.ts` (class `InputHandler`). -/
def handleData (st : AppState) (rs : RouterState) (data : List Char) :
    RouterState × List RouterOutput :=
  match st.mode with
  | .creatingSession => (rs, [.onSessionCreatorInput data])
  | .confirmingClose => (rs, [.onConfirmDialogInput data])
  | .gitSelect => (rs, [.onGitSelectInput data])
  | .gitMessage => (rs, [.onGitMessageInput data])
  | .gitRunning => (rs, [])
  | .gitResult => (rs, [.onGitResultInput data])
  | .syncRunning => (rs, [])
  | .syncResult => (rs, [.onSyncResultInput data])
  | .workspaceCreating => (rs, [])
  | .normal =>
    if data = CTRL_B ∧ rs.prefixActive = false then
      ({ prefixActive := true, timerArmed := true }, [])
    else if rs.prefixActive then
      if data.head? = some '\x1b' then
        (rs,
          match getActiveSession st with
          | some s => if s.exitCode = none then [.ptyWrite s.id data] else []
          | none => [])
      else
        ({ prefixActive := false, timerArmed := false }, handlePrefixCommand data)
    else
      match getActiveSession st with
      | some s =>
          if s.exitCode = none then
            (rs, .ptyWrite s.id data ::
              (if data = ['\x0d'] then [.submit s.id] else []))
          else (rs, [])
      | none => (rs, [])

/-- The body of the prefix `setTimeout` callback from `input-handler.ts`;
it runs only while the timer is armed. -/
def fireTimeout (st : AppState) (rs : RouterState) :
    RouterState × List RouterOutput :=
  if rs.timerArmed then
    ({ prefixActive := false, timerArmed := false },
      match getActiveSession st with
      | some s => if s.exitCode = none then [.ptyWrite s.id CTRL_B] else []
      | none => [])
  else (rs, [])

/-- `handlePrefixCommand` from `hooks/use-input-router.ts` (the hook-based
input-router variant): same commands without g/s, and with up/down scroll
bindings after the tab-number check. -/
def hookHandlePrefixCommand (key : List Char) : List RouterOutput :=
  if key = ['q'] ∨ key = ['Q'] then [.onQuit]
  else if key = ['n'] ∨ key = ['N'] then [.onCreateSession]
  else if key = ['w'] ∨ key = ['W'] then [.onCloseSession]
  else if key = [']'] then [.dispatch .nextTab]
  else if key = ['['] then [.dispatch .prevTab]
  else
    match parseIntJs key with
    | some num =>
        if 1 ≤ num ∧ num ≤ 9 then [.dispatch (.jumpToTab (num - 1))]
        else if key = ['\x1b', '[', 'A'] ∨ key = ['A'] then [.dispatch (.scrollUp 5)]
        else if key = ['\x1b', '[', 'B'] ∨ key = ['B'] then [.dispatch (.scrollDown 5)]
        else []
    | none =>
        if key = ['\x1b', '[', 'A'] ∨ key = ['A'] then [.dispatch (.scrollUp 5)]
        else if key = ['\x1b', '[', 'B'] ∨ key = ['B'] then [.dispatch (.scrollDown 5)]
        else []

theorem handlePrefixCommand_no_ptyWrite (key : List Char) (sid : String)
    (d : List Char) : RouterOutput.ptyWrite sid d ∉ handlePrefixCommand key := by
  unfold handlePrefixCommand
  split_ifs <;> first
    | simp
    | (cases hp : parseIntJs key with
        | none => simp
        | some num =>
            by_cases hn : 1 ≤ num ∧ num ≤ 9 <;> simp [hn])

theorem getActiveSession_mem {st : AppState} {s : Session}
    (h : getActiveSession st = some s) : s ∈ st.sessions :=
  List.mem_of_find?_eq_some h

/-- Inversion: a PTY write emitted by `handleData` always targets the live
active session, carries the incoming chunk, and that chunk is never the
bare CTRL_B chunk. -/
theorem handleData_ptyWrite_mem {st : AppState} {rs : RouterState}
    {data : List Char} {sid : String} {d : List Char}
    (h : RouterOutput.ptyWrite sid d ∈ (handleData st rs data).2) :
    ∃ s, getActiveSession st = some s ∧ s.id = sid ∧ s.exitCode = none ∧
      d = data ∧ data ≠ CTRL_B := by
  obtain ⟨ss, act, mode, so⟩ := st
  obtain ⟨pa, ta⟩ := rs
  cases mode with
  | creatingSession => simp [handleData] at h
  | confirmingClose => simp [handleData] at h
  | gitSelect => simp [handleData] at h
  | gitMessage => simp [handleData] at h
  | gitRunning => simp [handleData] at h
  | gitResult => simp [handleData] at h
  | syncRunning => simp [handleData] at h
  | syncResult => simp [handleData] at h
  | workspaceCreating => simp [handleData] at h
  | normal =>
      cases pa with
      | true =>
          by_cases hh : data.head? = some '\x1b'
          · simp only [handleData] at h
            rw [if_neg (by simp), if_pos (by trivial), if_pos hh] at h
            cases hg : getActiveSession (AppState.mk ss act .normal so) with
            | none => simp [hg] at h
            | some s =>
                simp only [hg] at h
                by_cases he : s.exitCode = none
                · rw [if_pos he] at h
                  simp only [List.mem_singleton, RouterOutput.ptyWrite.injEq] at h
                  refine ⟨s, rfl, ?_, he, ?_, fun hC => ?_⟩
                  · first | exact h.1 | exact h.1.symm
                  · exact h.2
                  · rw [hC] at hh
                    simp [CTRL_B] at hh
                · rw [if_neg he] at h; simp at h
          · simp only [handleData] at h
            rw [if_neg (by simp), if_pos (by trivial), if_neg hh] at h
            exact absurd h (handlePrefixCommand_no_ptyWrite data sid d)
      | false =>
          by_cases h1 : data = CTRL_B
          · simp only [handleData] at h
            rw [if_pos ⟨h1, by trivial⟩] at h
            simp at h
          · simp only [handleData] at h
            rw [if_neg (fun hc => h1 hc.1), if_neg (by simp)] at h
            cases hg : getActiveSession (AppState.mk ss act .normal so) with
            | none => simp [hg] at h
            | some s =>
                simp only [hg] at h
                by_cases he : s.exitCode = none
                · rw [if_pos he] at h
                  simp only [List.mem_cons, RouterOutput.ptyWrite.injEq] at h
                  rcases h with ⟨hsid, hd⟩ | h
                  · refine ⟨s, rfl, ?_, he, ?_, h1⟩
                    · first | exact hsid | exact hsid.symm
                    · exact hd
                  · by_cases hr : data = ['\x0d'] <;> simp [hr] at h
                · rw [if_neg he] at h; simp at h

/-- Inversion: a PTY write emitted by the prefix-timer callback targets the
live active session, carries exactly CTRL_B, and requires an armed timer. -/
theorem fireTimeout_ptyWrite_mem {st : AppState} {rs : RouterState}
    {sid : String} {d : List Char}
    (h : RouterOutput.ptyWrite sid d ∈ (fireTimeout st rs).2) :
    ∃ s, getActiveSession st = some s ∧ s.id = sid ∧ s.exitCode = none ∧
      d = CTRL_B ∧ rs.timerArmed = true := by
  unfold fireTimeout at h
  by_cases ht : rs.timerArmed = true
  · rw [if_pos ht] at h
    cases hg : getActiveSession st with
    | none => simp [hg] at h
    | some s =>
        simp only [hg] at h
        by_cases he : s.exitCode = none
        · rw [if_pos he] at h
          simp only [List.mem_singleton, RouterOutput.ptyWrite.injEq] at h
          refine ⟨s, rfl, ?_, he, ?_, ht⟩
          · first | exact h.1 | exact h.1.symm
          · exact h.2
        · rw [if_neg he] at h; simp at h
  · rw [if_neg ht] at h; simp at h

/-- State with one live session `a`, active, in normal mode. -/
def stLive : AppState :=
  { sessions := [sessA], activeSessionId := some "a", mode := .normal, scrollOffset := 0 }

/-- C3 (amended): the prefix byte is CTRL_B (0x02) with a 500 ms timer.
Sending CTRL_B while the prefix is inactive arms the prefix and its timer
and writes nothing; if the timer then fires, exactly one CTRL_B chunk is
written to the live active PTY.  If instead another chunk arrives first:
when it does not start with ESC it is consumed as a prefix command — no PTY
write at all, the timer is disarmed, and a later timer event writes
nothing; when it starts with ESC (the case the original claim missed) it is
passed through to the live active PTY and the prefix and timer stay armed,
so the timeout can still forward a CTRL_B afterwards. -/
theorem prefix_timer_semantics :
    PREFIX_TIMEOUT_MS = 500 ∧
    (∀ (st : AppState) (s : Session), st.mode = .normal →
      getActiveSession st = some s → s.exitCode = none →
      handleData st ⟨false, false⟩ CTRL_B = (⟨true, true⟩, []) ∧
      fireTimeout st ⟨true, true⟩ = (⟨false, false⟩, [.ptyWrite s.id CTRL_B])) ∧
    (∀ (st : AppState) (k : List Char), st.mode = .normal →
      k.head? ≠ some '\x1b' →
      handleData st ⟨true, true⟩ k = (⟨false, false⟩, handlePrefixCommand k) ∧
      (∀ sid d, RouterOutput.ptyWrite sid d ∉ handlePrefixCommand k) ∧
      fireTimeout st ⟨false, false⟩ = (⟨false, false⟩, [])) ∧
    (∀ (st : AppState) (k : List Char) (s : Session), st.mode = .normal →
      k.head? = some '\x1b' → getActiveSession st = some s → s.exitCode = none →
      handleData st ⟨true, true⟩ k = (⟨true, true⟩, [.ptyWrite s.id k])) := by
  refine ⟨rfl, ?_, ?_, ?_⟩
  · intro st s hmode hact hexit
    obtain ⟨ss, act, mode, so⟩ := st
    cases hmode
    constructor
    · simp [handleData]
    · simp [fireTimeout, hact, hexit]
  · intro st k hmode hk
    obtain ⟨ss, act, mode, so⟩ := st
    cases hmode
    refine ⟨?_, fun sid d => handlePrefixCommand_no_ptyWrite k sid d, rfl⟩
    simp only [handleData]
    rw [if_neg (by simp), if_pos (by trivial), if_neg hk]
  · intro st k s hmode hk hact hexit
    obtain ⟨ss, act, mode, so⟩ := st
    cases hmode
    simp only [handleData]
    rw [if_neg (by simp), if_pos (by trivial), if_pos hk]
    simp [hact, hexit]

/-- Witness for C3's amended theorem: the timeout and command cases applied
to the concrete live-session state. -/
theorem prefix_timer_semantics_witness :
    (handleData stLive ⟨false, false⟩ CTRL_B = (⟨true, true⟩, []) ∧
      fireTimeout stLive ⟨true, true⟩ = (⟨false, false⟩, [.ptyWrite "a" CTRL_B])) ∧
    (handleData stLive ⟨true, true⟩ ['n'] = (⟨false, false⟩, handlePrefixCommand ['n']) ∧
      (∀ sid d, RouterOutput.ptyWrite sid d ∉ handlePrefixCommand ['n']) ∧
      fireTimeout stLive ⟨false, false⟩ = (⟨false, false⟩, [])) :=
  ⟨prefix_timer_semantics.2.1 stLive sessA rfl rfl rfl,
   prefix_timer_semantics.2.2.1 stLive ['n'] rfl (by decide)⟩

/-- C3 counterexample: CTRL_B arrives, then the chunk `ESC [ A` arrives
before the timeout, then the timer fires.  The intervening chunk is passed
through to the PTY (not consumed as a command) and one CTRL_B is still
forwarded — the claim said zero CTRL_B and no pass-through in this case. -/
theorem prefix_timer_counterexample :
    handleData stLive ⟨false, false⟩ CTRL_B = (⟨true, true⟩, []) ∧
    handleData stLive ⟨true, true⟩ ['\x1b', '[', 'A'] =
      (⟨true, true⟩, [.ptyWrite "a" ['\x1b', '[', 'A']]) ∧
    fireTimeout stLive ⟨true, true⟩ = (⟨false, false⟩, [.ptyWrite "a" CTRL_B]) := by
  decide

/-- C7: after `SESSION_EXITED(id, code)` the session stays in the list with
`exit_code = code`, and the input router never writes to a session whose
`exit_code` is set — not in pass-through, not for ESC-prefixed chunks while
the prefix is active, and not from the prefix-timeout CTRL_B forward. -/
theorem session_exited_never_written :
    (∀ (st : AppState) (sid : String) (c : Int),
      ∃ st', appReducer st (.sessionExited sid c) = some st' ∧
        ∀ sess ∈ st.sessions, sess.id = sid →
          { sess with exitCode := some c } ∈ st'.sessions) ∧
    (∀ (st : AppState) (rs : RouterState) (sid : String) (data : List Char),
      (∀ sess ∈ st.sessions, sess.id = sid → sess.exitCode ≠ none) →
      ∀ d, RouterOutput.ptyWrite sid d ∉ (handleData st rs data).2) ∧
    (∀ (st : AppState) (rs : RouterState) (sid : String),
      (∀ sess ∈ st.sessions, sess.id = sid → sess.exitCode ≠ none) →
      ∀ d, RouterOutput.ptyWrite sid d ∉ (fireTimeout st rs).2) := by
  refine ⟨?_, ?_, ?_⟩
  · intro st sid c
    refine ⟨_, rfl, fun sess hm hid => ?_⟩
    exact List.mem_map.mpr ⟨sess, hm, by simp [hid]⟩
  · intro st rs sid data hP d hmem
    obtain ⟨s, hg, hsid, hexit, -, -⟩ := handleData_ptyWrite_mem hmem
    exact hP s (getActiveSession_mem hg) hsid hexit
  · intro st rs sid hP d hmem
    obtain ⟨s, hg, hsid, hexit, -, -⟩ := fireTimeout_ptyWrite_mem hmem
    exact hP s (getActiveSession_mem hg) hsid hexit

/-- State whose only session `a` (active) has exited with code 1. -/
def stExited : AppState :=
  { sessions := [{ id := "a", branch := "main", worktreePath := "/w/a", exitCode := some 1 }],
    activeSessionId := some "a", mode := .normal, scrollOffset := 0 }

/-- Witness for C7's theorem: applied to a state whose active session has
exited — neither a stdin chunk nor the timeout write reaches its PTY. -/
theorem session_exited_never_written_witness :
    (∃ st', appReducer stLive (.sessionExited "a" 1) = some st' ∧
      ∀ sess ∈ stLive.sessions, sess.id = "a" →
        { sess with exitCode := some (1 : Int) } ∈ st'.sessions) ∧
    RouterOutput.ptyWrite "a" ['x'] ∉ (handleData stExited ⟨false, false⟩ ['x']).2 ∧
    RouterOutput.ptyWrite "a" CTRL_B ∉ (fireTimeout stExited ⟨true, true⟩).2 :=
  ⟨session_exited_never_written.1 stLive "a" 1,
   session_exited_never_written.2.1 stExited ⟨false, false⟩ "a" ['x'] (by decide) ['x'],
   session_exited_never_written.2.2 stExited ⟨true, true⟩ "a" (by decide) CTRL_B⟩

/-- C8 counterexample: in the current `InputHandler`, with the prefix
active, the chunk `A` produces no output at all (no `SCROLL_UP` dispatch),
and the chunk `ESC [ A` is forwarded to the active PTY instead of
dispatching `SCROLL_UP 5`. -/
theorem prefix_scroll_counterexample :
    (handleData stLive ⟨true, true⟩ ['A']).2 = [] ∧
    (handleData stLive ⟨true, true⟩ ['\x1b', '[', 'A']).2 =
      [.ptyWrite "a" ['\x1b', '[', 'A']] ∧
    RouterOutput.dispatch (.scrollUp 5) ∉ (handleData stLive ⟨true, true⟩ ['A']).2 ∧
    RouterOutput.dispatch (.scrollUp 5) ∉
      (handleData stLive ⟨true, true⟩ ['\x1b', '[', 'A']).2 := by decide

/-- C8 (amended): the up/down scroll bindings (`ESC [ A` / `A` →
`SCROLL_UP 5`, `ESC [ B` / `B` → `SCROLL_DOWN 5`) exist only in the
hook-based router variant (`use-input-router.ts`); in the current
`InputHandler` these keys scroll nothing — `A`/`B` match no command and are
dropped, and `ESC [ A` is forwarded to the live active PTY with the prefix
left active. -/
theorem prefix_scroll_commands :
    hookHandlePrefixCommand ['\x1b', '[', 'A'] = [.dispatch (.scrollUp 5)] ∧
    hookHandlePrefixCommand ['A'] = [.dispatch (.scrollUp 5)] ∧
    hookHandlePrefixCommand ['\x1b', '[', 'B'] = [.dispatch (.scrollDown 5)] ∧
    hookHandlePrefixCommand ['B'] = [.dispatch (.scrollDown 5)] ∧
    handlePrefixCommand ['A'] = [] ∧
    handlePrefixCommand ['B'] = [] ∧
    handleData stLive ⟨true, true⟩ ['\x1b', '[', 'A'] =
      (⟨true, true⟩, [.ptyWrite "a" ['\x1b', '[', 'A']]) := by decide

/-- C10: a CTRL_B chunk while the prefix is already active deactivates the
prefix, matches no command and is dropped; two quick CTRL_B chunks deliver
zero bytes and execute no command; and no `handleData` call ever writes a
CTRL_B chunk to a PTY — only the prefix-timeout callback does. -/
theorem double_ctrl_b_dropped :
    (∀ (st : AppState) (b : Bool), st.mode = .normal →
      handleData st ⟨true, b⟩ CTRL_B = (⟨false, false⟩, [])) ∧
    (∀ (st : AppState) (rs : RouterState) (data : List Char) (sid : String),
      RouterOutput.ptyWrite sid CTRL_B ∉ (handleData st rs data).2) ∧
    handleData stLive ⟨false, false⟩ CTRL_B = (⟨true, true⟩, []) ∧
    handleData stLive ⟨true, true⟩ CTRL_B = (⟨false, false⟩, []) ∧
    (fireTimeout stLive ⟨true, true⟩).2 = [.ptyWrite "a" CTRL_B] := by
  refine ⟨?_, ?_, by decide, by decide, by decide⟩
  · intro st b hmode
    obtain ⟨ss, act, mode, so⟩ := st
    cases hmode
    simp only [handleData]
    rw [if_neg (by simp), if_pos (by trivial), if_neg (by decide),
      show handlePrefixCommand CTRL_B = [] from by decide]
  · intro st rs data sid hmem
    obtain ⟨s, -, -, -, hd, hne⟩ := handleData_ptyWrite_mem hmem
    exact hne hd.symm

/-- Witness for C10's theorem: the general CTRL_B-while-active case applied
to the concrete live-session state. -/
theorem double_ctrl_b_dropped_witness :
    handleData stLive ⟨true, false⟩ CTRL_B = (⟨false, false⟩, []) :=
  double_ctrl_b_dropped.1 stLive false rfl

/-! ## JavaScript global regex replacement

`s.replace(re, repl)` with a `g`-flagged `re` scans left to right, replaces
each non-overlapping leftmost match and resumes after the match end; the
replacement text is never rescanned.  `replaceAll m repl` embeds this for a
matcher `m` where `m s = some n` means `re` matches a length-`n` prefix of
`s`.  Each filter regex of `ScreenRenderer` is deterministic (at a given
start position, backtracking cannot produce an alternative overall match),
so a prefix-matcher captures it exactly. -/

/-- The scan worker; the fuel argument only makes the recursion structural.
A scan step always consumes at least one character, so fuel equal to the
string length (supplied by `replaceAll`) is never exhausted. -/
def replaceAllGo (m : List Char → Option Nat) (r : List Char) :
    Nat → List Char → List Char
  | _, [] => []
  | 0, _ :: _ => []
  | fuel + 1, c :: cs =>
      match m (c :: cs) with
      | some n => r ++ replaceAllGo m r fuel (cs.drop (n - 1))
      | none => c :: replaceAllGo m r fuel cs

def replaceAll (m : List Char → Option Nat) (r : List Char)
    (s : List Char) : List Char :=
  replaceAllGo m r s.length s

theorem replaceAllGo_congr {m : List Char → Option Nat} {r : List Char} :
    ∀ (f1 f2 : Nat) (s : List Char), s.length ≤ f1 → s.length ≤ f2 →
      replaceAllGo m r f1 s = replaceAllGo m r f2 s := by
  intro f1
  induction f1 with
  | zero =>
      intro f2 s h1 _
      have : s = [] := List.length_eq_zero.mp (by omega)
      subst this
      cases f2 <;> rfl
  | succ g1 ih =>
      intro f2 s h1 h2
      cases s with
      | nil => cases f2 <;> rfl
      | cons c cs =>
          cases f2 with
          | zero => simp at h2
          | succ g2 =>
              simp only [replaceAllGo]
              cases hm : m (c :: cs) with
              | some n =>
                  have hd : (cs.drop (n - 1)).length ≤ cs.length := by
                    simp [List.length_drop]
                  simp only [List.length_cons] at h1 h2
                  simp [ih g2 (cs.drop (n - 1)) (by omega) (by omega)]
              | none =>
                  simp only [List.length_cons] at h1 h2
                  simp [ih g2 cs (by omega) (by omega)]

theorem replaceAll_nil {m : List Char → Option Nat} {r : List Char} :
    replaceAll m r [] = [] := rfl

theorem replaceAll_cons_none {m : List Char → Option Nat} {r : List Char}
    {c : Char} {cs : List Char} (h : m (c :: cs) = none) :
    replaceAll m r (c :: cs) = c :: replaceAll m r cs := by
  unfold replaceAll
  simp only [List.length_cons, replaceAllGo, h]

theorem replaceAll_cons_some {m : List Char → Option Nat} {r : List Char}
    {c : Char} {cs : List Char} {n : Nat} (h : m (c :: cs) = some n) :
    replaceAll m r (c :: cs) = r ++ replaceAll m r (cs.drop (n - 1)) := by
  unfold replaceAll
  simp only [List.length_cons, replaceAllGo, h]
  congr 1
  exact replaceAllGo_congr cs.length (cs.drop (n - 1)).length (cs.drop (n - 1))
    (by simp [List.length_drop]) le_rfl

/-- A string with no ESC byte. -/
@[reducible] def NoEsc (s : List Char) : Prop := '\x1b' ∉ s

theorem replaceAll_append_noEsc {m : List Char → Option Nat} {r : List Char}
    (hm : ∀ c cs, c ≠ '\x1b' → m (c :: cs) = none) {t : List Char}
    (ht : NoEsc t) (u : List Char) :
    replaceAll m r (t ++ u) = t ++ replaceAll m r u := by
  induction t with
  | nil => simp
  | cons c t ih =>
      have hc : c ≠ '\x1b' := fun e => ht (by simp [NoEsc, e])
      rw [List.cons_append, replaceAll_cons_none (hm c (t ++ u) hc)]
      have ht' : NoEsc t := fun hx => ht (by simp [NoEsc] at hx ⊢; exact .inr hx)
      rw [ih ht', List.cons_append]

theorem replaceAll_noEsc {m : List Char → Option Nat} {r : List Char}
    (hm : ∀ c cs, c ≠ '\x1b' → m (c :: cs) = none) {t : List Char}
    (ht : NoEsc t) : replaceAll m r t = t := by
  have h := replaceAll_append_noEsc (r := r) hm ht []
  simpa [replaceAll_nil] using h

theorem replaceAll_token {m : List Char → Option Nat} {r : List Char}
    {c : Char} {body u : List Char}
    (h : m ((c :: body) ++ u) = some (body.length + 1)) :
    replaceAll m r ((c :: body) ++ u) = r ++ replaceAll m r u := by
  rw [List.cons_append, replaceAll_cons_some (by simpa using h)]
  simp [List.drop_left' rfl]

theorem replaceAll_token_skip {m : List Char → Option Nat} {r : List Char}
    (hm : ∀ c cs, c ≠ '\x1b' → m (c :: cs) = none)
    {body u : List Char} (hbody : NoEsc body)
    (h : m (('\x1b' :: body) ++ u) = none) :
    replaceAll m r (('\x1b' :: body) ++ u) =
      '\x1b' :: (body ++ replaceAll m r u) := by
  rw [List.cons_append, replaceAll_cons_none (by simpa using h),
    replaceAll_append_noEsc hm hbody]

/-! ### Character / digit helpers -/

theorem takeWhile_all_append {p : Char → Bool} {l : List Char} {c : Char}
    (hl : ∀ x ∈ l, p x = true) (hc : p c = false) (u : List Char) :
    (l ++ c :: u).takeWhile p = l := by
  induction l with
  | nil => simp [List.takeWhile_cons_of_neg, hc]
  | cons a t ih =>
      rw [List.cons_append, List.takeWhile_cons_of_pos (hl a (by simp)),
        ih (fun x hx => hl x (by simp [hx]))]

theorem get?_append_self {l u : List Char} {c : Char} :
    (l ++ c :: u).get? l.length = some c := by
  rw [List.get?_append_right (le_refl _)]
  simp

theorem ne_of_isDigit {c d : Char} (h : c.isDigit = true)
    (hd : d.isDigit = false) : c ≠ d := by
  intro e
  subst e
  rw [hd] at h
  exact Bool.false_ne_true h

/-- `[0-9;]` — the parameter-character class shared by the SGR and Kitty
filter regexes. -/
def isParamChar (c : Char) : Bool := c.isDigit || c == ';'

theorem ne_of_isParamChar {c d : Char} (h : isParamChar c = true)
    (hd : isParamChar d = false) : c ≠ d := by
  intro e
  subst e
  rw [hd] at h
  exact Bool.false_ne_true h

theorem isParamChar_of_isDigit {c : Char} (h : c.isDigit = true) :
    isParamChar c = true := by
  simp [isParamChar, h]

theorem digitChar_isDigit {m : Nat} (hm : m < 10) :
    (Nat.digitChar m).isDigit = true := by
  interval_cases m <;> decide

theorem toDigitsCore_digits :
    ∀ (f n : Nat) (acc : List Char), (∀ c ∈ acc, c.isDigit = true) →
      ∀ c ∈ Nat.toDigitsCore 10 f n acc, c.isDigit = true := by
  intro f
  induction f with
  | zero =>
      intro n acc hacc c hc
      simp only [Nat.toDigitsCore] at hc
      exact hacc c hc
  | succ f ih =>
      intro n acc hacc c hc
      simp only [Nat.toDigitsCore] at hc
      split at hc
      · rcases List.mem_cons.mp hc with rfl | hc
        · exact digitChar_isDigit (Nat.mod_lt _ (by norm_num))
        · exact hacc c hc
      · refine ih (n / 10) _ ?_ c hc
        intro x hx
        rcases List.mem_cons.mp hx with rfl | hx
        · exact digitChar_isDigit (Nat.mod_lt _ (by norm_num))
        · exact hacc x hx

/-- The character list of JavaScript's decimal rendering of a `Nat`
(template-literal interpolation of a non-negative integer). -/
def natChars (n : Nat) : List Char := (Nat.repr n).data

theorem natChars_digits (n : Nat) : ∀ c ∈ natChars n, c.isDigit = true := by
  intro c hc
  have he : natChars n = Nat.toDigitsCore 10 (n + 1) n [] := rfl
  rw [he] at hc
  exact toDigitsCore_digits (n + 1) n [] (by simp) c hc

theorem natChars_noEsc (n : Nat) : NoEsc (natChars n) := by
  intro h
  exact Bool.false_ne_true ((by decide : ('\x1b').isDigit = false) ▸ natChars_digits n _ h)

/-- JavaScript decimal rendering of a (possibly negative) integer. -/
def intChars : Int → List Char
  | .ofNat n => natChars n
  | .negSucc n => '-' :: natChars (n + 1)

/-! ## utils/ansi.ts -/

/-- `const ESC = "\x1b["` from `utils/ansi.ts`. -/
def escBracket : List Char := ['\x1b', '[']

/-- JavaScript `Array.prototype.join(sep)`. -/
def joinSep (sep : List Char) : List (List Char) → List Char
  | [] => []
  | [x] => x
  | x :: xs => x ++ sep ++ joinSep sep xs

/-- `sgr(...codes)` from `utils/ansi.ts`. -/
def sgr (codes : List Nat) : List Char :=
  if codes = [] then escBracket ++ ['0', 'm']
  else escBracket ++ joinSep [';'] (codes.map natChars) ++ ['m']

/-- `RESET = sgr(0)` from `utils/ansi.ts`. -/
def RESET : List Char := sgr [0]

/-- `setScrollRegion(top, bottom)` from `utils/ansi.ts`. -/
def setScrollRegion (top bottom : Nat) : List Char :=
  escBracket ++ natChars top ++ [';'] ++ natChars bottom ++ ['r']

theorem RESET_eq : RESET = ['\x1b', '[', '0', 'm'] := by decide

/-! ## Stripping CSI-SGR sequences (`visibleLength`)

`visibleLength` in `screen-renderer.ts` is
`str.replace(/\x1b\[[0-9;]*m/g, "").length`.  At any start position that
regex has at most one possible match: the `[0-9;]*` run is maximal (the
class excludes `m`) and must be followed directly by `m`. -/

/-- Prefix matcher for `/\x1b\[[0-9;]*m/`. -/
def sgrMatcher (s : List Char) : Option Nat :=
  if s.take 2 = ['\x1b', '['] then
    let ps := (s.drop 2).takeWhile isParamChar
    if (s.drop 2).get? ps.length = some 'm' then some (2 + ps.length + 1) else none
  else none

/-- `str.replace(/\x1b\[[0-9;]*m/g, "")`. -/
def stripSgr (s : List Char) : List Char := replaceAll sgrMatcher [] s

/-- `visibleLength` from `screen-renderer.ts`. -/
def visibleLength (s : List Char) : Nat := (stripSgr s).length

theorem sgrMatcher_ne_esc : ∀ (c : Char) (cs : List Char), c ≠ '\x1b' →
    sgrMatcher (c :: cs) = none := by
  intro c cs hc
  have h2 : (c :: cs).take 2 ≠ ['\x1b', '['] := by
    cases cs <;> simp [hc]
  unfold sgrMatcher
  rw [if_neg h2]

theorem sgrMatcher_cons_esc (rest : List Char) :
    sgrMatcher ('\x1b' :: '[' :: rest) =
      (if rest.get? (rest.takeWhile isParamChar).length = some 'm'
       then some (2 + (rest.takeWhile isParamChar).length + 1) else none) := by
  unfold sgrMatcher
  rw [if_pos (by simp)]
  simp

theorem joinSep_param {L : List (List Char)}
    (hL : ∀ x ∈ L, ∀ c ∈ x, isParamChar c = true) :
    ∀ c ∈ joinSep [';'] L, isParamChar c = true := by
  induction L with
  | nil => simp [joinSep]
  | cons x xs ih =>
      cases xs with
      | nil => simpa [joinSep] using hL x (by simp)
      | cons y ys =>
          intro c hc
          simp only [joinSep, List.append_assoc, List.mem_append,
            List.mem_singleton, List.mem_cons] at hc
          rcases hc with hx | hsep | hrest
          · exact hL x (by simp) c hx
          · rcases hsep with rfl | h
            · decide
            · simp at h
          · exact ih (fun z hz => hL z (by simp [hz])) c hrest

theorem sgr_eq (codes : List Nat) :
    ∃ body, sgr codes = '\x1b' :: '[' :: (body ++ ['m']) ∧
      ∀ c ∈ body, isParamChar c = true := by
  by_cases h : codes = []
  · exact ⟨['0'], by simp [sgr, h, escBracket], by decide⟩
  · refine ⟨joinSep [';'] (codes.map natChars), by simp [sgr, h, escBracket], ?_⟩
    refine joinSep_param ?_
    intro x hx c hc
    obtain ⟨n, -, rfl⟩ := List.mem_map.mp hx
    exact isParamChar_of_isDigit (natChars_digits n c hc)

theorem sgrMatcher_sgr (codes : List Nat) (u : List Char) :
    sgrMatcher (sgr codes ++ u) = some (sgr codes).length := by
  obtain ⟨body, hb, hbody⟩ := sgr_eq codes
  rw [hb]
  have hshape : ('\x1b' :: '[' :: (body ++ ['m'])) ++ u =
      '\x1b' :: '[' :: (body ++ 'm' :: u) := by simp
  rw [hshape]
  have htw : (body ++ 'm' :: u).takeWhile isParamChar = body :=
    takeWhile_all_append hbody (by decide) u
  have hg : (body ++ 'm' :: u).get? body.length = some 'm' := get?_append_self
  rw [sgrMatcher_cons_esc, htw, hg, if_pos rfl]
  congr 1
  simp only [List.length_cons, List.length_append, List.length_nil]
  omega

theorem stripSgr_sgr_append (codes : List Nat) (u : List Char) :
    stripSgr (sgr codes ++ u) = stripSgr u := by
  have hm := sgrMatcher_sgr codes u
  obtain ⟨body, hb, -⟩ := sgr_eq codes
  unfold stripSgr
  rw [hb] at hm ⊢
  have := @replaceAll_token sgrMatcher [] '\x1b'
    ('[' :: (body ++ ['m'])) u (by simpa using hm)
  simpa using this

theorem stripSgr_sgr (codes : List Nat) : stripSgr (sgr codes) = [] := by
  have h := stripSgr_sgr_append codes []
  rw [List.append_nil] at h
  rw [h]
  simp [stripSgr, replaceAll_nil]

/-- `s` interacts with nothing appended after it under SGR stripping. -/
def StripClosed (s : List Char) : Prop :=
  ∀ u, stripSgr (s ++ u) = stripSgr s ++ stripSgr u

theorem stripClosed_append {a b : List Char} (ha : StripClosed a)
    (hb : StripClosed b) : StripClosed (a ++ b) := by
  intro u
  rw [List.append_assoc, ha (b ++ u), hb u, ha b, List.append_assoc]

theorem stripClosed_noEsc {t : List Char} (ht : NoEsc t) : StripClosed t := by
  intro u
  unfold stripSgr
  rw [replaceAll_append_noEsc sgrMatcher_ne_esc ht,
    replaceAll_noEsc sgrMatcher_ne_esc ht]

theorem stripClosed_sgr (codes : List Nat) : StripClosed (sgr codes) := by
  intro u
  rw [stripSgr_sgr_append, stripSgr_sgr]
  simp

theorem takeWhile_append_nonsat {p : Char → Bool} {d : Char}
    (hd : p d = false) (rest X : List Char) :
    (rest ++ d :: X).takeWhile p = rest.takeWhile p := by
  induction rest with
  | nil => simp [List.takeWhile_cons_of_neg, hd]
  | cons a t ih =>
      by_cases ha : p a = true
      · rw [List.cons_append, List.takeWhile_cons_of_pos ha,
          List.takeWhile_cons_of_pos ha, ih]
      · rw [List.cons_append, List.takeWhile_cons_of_neg (by simpa using ha),
          List.takeWhile_cons_of_neg (by simpa using ha)]

theorem length_takeWhile_le' {p : Char → Bool} (l : List Char) :
    (l.takeWhile p).length ≤ l.length := by
  induction l with
  | nil => simp
  | cons a t ih =>
      by_cases ha : p a = true
      · rw [List.takeWhile_cons_of_pos ha]; simpa using ih
      · rw [List.takeWhile_cons_of_neg (by simpa using ha)]; simp

/-- The SGR matcher's verdict at the start of `v ++ RESET` does not depend
on what follows the `RESET`, and any match there stays within `v`
(`RESET`'s ESC interrupts any parameter run from `v`, and `RESET`'s own
`m` is unreachable from `v`). -/
theorem sgrMatcher_reset_indep (v u : List Char) (hv : v ≠ []) :
    sgrMatcher (v ++ (RESET ++ u)) = sgrMatcher (v ++ RESET) ∧
    (∀ n, sgrMatcher (v ++ RESET) = some n → n ≤ v.length) := by
  rw [RESET_eq]
  match v, hv with
  | [c], _ =>
      constructor
      · have h1 : ([c] ++ (['\x1b', '[', '0', 'm'] ++ u)).take 2 ≠ ['\x1b', '['] := by
          simp
        have h2 : ([c] ++ ['\x1b', '[', '0', 'm']).take 2 ≠ ['\x1b', '['] := by
          simp
        unfold sgrMatcher
        rw [if_neg h1, if_neg h2]
      · intro n hn
        have h2 : ([c] ++ ['\x1b', '[', '0', 'm']).take 2 ≠ ['\x1b', '['] := by
          simp
        unfold sgrMatcher at hn
        rw [if_neg h2] at hn
        exact absurd hn (by simp)
  | c1 :: c2 :: v2, _ =>
      by_cases hcc : c1 = '\x1b' ∧ c2 = '['
      · obtain ⟨rfl, rfl⟩ := hcc
        have hshape1 : ('\x1b' :: '[' :: v2) ++ (['\x1b', '[', '0', 'm'] ++ u) =
            '\x1b' :: '[' :: (v2 ++ '\x1b' :: (['[', '0', 'm'] ++ u)) := by simp
        have hshape2 : ('\x1b' :: '[' :: v2) ++ ['\x1b', '[', '0', 'm'] =
            '\x1b' :: '[' :: (v2 ++ '\x1b' :: ['[', '0', 'm']) := by simp
        rw [hshape1, hshape2, sgrMatcher_cons_esc, sgrMatcher_cons_esc]
        have htw1 := takeWhile_append_nonsat (p := isParamChar) (d := '\x1b')
          (by decide) v2 (['[', '0', 'm'] ++ u)
        have htw2 := takeWhile_append_nonsat (p := isParamChar) (d := '\x1b')
          (by decide) v2 ['[', '0', 'm']
        rw [htw1, htw2]
        set k := (v2.takeWhile isParamChar).length with hk
        have hkle : k ≤ v2.length := length_takeWhile_le' v2
        by_cases hlt : k < v2.length
        · have hg1 : (v2 ++ '\x1b' :: (['[', '0', 'm'] ++ u)).get? k = v2.get? k :=
            List.get?_append hlt
          have hg2 : (v2 ++ '\x1b' :: ['[', '0', 'm']).get? k = v2.get? k :=
            List.get?_append hlt
          rw [hg1, hg2]
          refine ⟨rfl, fun n hn => ?_⟩
          split at hn
          · simp only [Option.some.injEq] at hn
            simp only [List.length_cons]
            omega
          · exact absurd hn (by simp)
        · have hke : k = v2.length := by omega
          have hg1 : (v2 ++ '\x1b' :: (['[', '0', 'm'] ++ u)).get? k = some '\x1b' := by
            rw [hke]; exact get?_append_self
          have hg2 : (v2 ++ '\x1b' :: ['[', '0', 'm']).get? k = some '\x1b' := by
            rw [hke]; exact get?_append_self
          rw [hg1, hg2]
          refine ⟨rfl, fun n hn => ?_⟩
          rw [if_neg (by simp)] at hn
          exact absurd hn (by simp)
      · constructor
        · simp [sgrMatcher, hcc]
        · intro n hn
          simp [sgrMatcher, hcc] at hn

/-- Anything ending in `RESET` is strip-closed, whatever precedes it. -/
theorem resetClosed : ∀ (v u : List Char),
    stripSgr ((v ++ RESET) ++ u) = stripSgr (v ++ RESET) ++ stripSgr u := by
  suffices H : ∀ (N : Nat) (v u : List Char), v.length ≤ N →
      stripSgr ((v ++ RESET) ++ u) = stripSgr (v ++ RESET) ++ stripSgr u by
    exact fun v u => H v.length v u le_rfl
  intro N
  induction N with
  | zero =>
      intro v u hv
      have : v = [] := List.length_eq_zero.mp (by omega)
      subst this
      simp only [List.nil_append]
      rw [show RESET = sgr [0] from rfl, stripSgr_sgr_append, stripSgr_sgr]
      simp
  | succ N ih =>
      intro v u hv
      cases v with
      | nil =>
          simp only [List.nil_append]
          rw [show RESET = sgr [0] from rfl, stripSgr_sgr_append, stripSgr_sgr]
          simp
      | cons c v' =>
          obtain ⟨heq, hbound⟩ := sgrMatcher_reset_indep (c :: v') u (by simp)
          have hLs : ((c :: v') ++ RESET) ++ u = c :: (v' ++ (RESET ++ u)) := by simp
          have hRs : (c :: v') ++ RESET = c :: (v' ++ RESET) := by simp
          cases hm : sgrMatcher ((c :: v') ++ RESET) with
          | none =>
              have hm' : sgrMatcher (c :: (v' ++ (RESET ++ u))) = none := by
                rw [show c :: (v' ++ (RESET ++ u)) = (c :: v') ++ (RESET ++ u) by simp,
                  heq, hm]
              have hmr : sgrMatcher (c :: (v' ++ RESET)) = none := by
                rw [← hRs, hm]
              rw [hLs, hRs]
              unfold stripSgr
              rw [replaceAll_cons_none hm', replaceAll_cons_none hmr]
              have ihv := ih v' u (by simp only [List.length_cons] at hv; omega)
              unfold stripSgr at ihv
              rw [show (v' ++ RESET) ++ u = v' ++ (RESET ++ u) by simp] at ihv
              rw [ihv]
              simp
          | some n =>
              have hnb := hbound n hm
              have hm' : sgrMatcher (c :: (v' ++ (RESET ++ u))) = some n := by
                rw [show c :: (v' ++ (RESET ++ u)) = (c :: v') ++ (RESET ++ u) by simp,
                  heq, hm]
              have hmr : sgrMatcher (c :: (v' ++ RESET)) = some n := by
                rw [← hRs, hm]
              rw [hLs, hRs]
              unfold stripSgr
              rw [replaceAll_cons_some hm', replaceAll_cons_some hmr]
              have hdle : n - 1 ≤ v'.length := by
                simp only [List.length_cons] at hnb; omega
              rw [List.drop_append_of_le_length hdle,
                @List.drop_append_of_le_length _ v' RESET _ hdle]
              have ihd := ih (v'.drop (n - 1)) u
                (by simp only [List.length_drop]
                    simp only [List.length_cons] at hv
                    omega)
              unfold stripSgr at ihd
              rw [show (v'.drop (n - 1) ++ RESET) ++ u =
                  v'.drop (n - 1) ++ (RESET ++ u) by simp] at ihd
              rw [List.append_assoc, ihd]

theorem stripClosed_reset (v : List Char) : StripClosed (v ++ RESET) :=
  fun u => resetClosed v u

/-! ## Chrome line (`ScreenRenderer.formatChromeLine`)

Embedding of `formatChromeLine` from `screen-renderer.ts` (the scroll-region
compositor variant with status dots and the `[GIT]` mode tag).  The
`sessionStatuses` map is an association list with JavaScript `Map.get`
lookup. -/

inductive SessionStatus
  | idle
  | working
  | waiting
deriving DecidableEq, Repr

/-- `this.sessionStatuses.get(session.id)` with `?? "idle"` default. -/
def statusGet (m : List (String × SessionStatus)) (k : String) : SessionStatus :=
  ((m.find? (fun e => e.1 == k)).map Prod.snd).getD .idle

/-- One tab entry: `" " + dot + labelStyle + label + RESET` pushed by the
session loop of `formatChromeLine`. -/
def chromeTab (statuses : List (String × SessionStatus)) (state : AppState)
    (i : Nat) (session : Session) : List Char :=
  let isActive := state.activeSessionId = some session.id
  let hasExited := session.exitCode ≠ none
  let status := statusGet statuses session.id
  let dotColor :=
    if hasExited ∨ status = .waiting then sgr [31]
    else if status = .working then sgr [32]
    else sgr [90]
  let dot := dotColor ++ ['●'] ++ RESET
  let label := [' '] ++ natChars (i + 1) ++ [':'] ++ session.branch.data ++ [' ']
  let labelStyle :=
    if hasExited then sgr [31]
    else if isActive then sgr [1, 4, 37]
    else sgr [90]
  [' '] ++ dot ++ (labelStyle ++ (label ++ RESET))

/-- The tab section of the chrome line: tabs separated by gray `|`. -/
def chromeTabs (statuses : List (String × SessionStatus)) (state : AppState) :
    Nat → List Session → List Char
  | _, [] => []
  | i, [s] => chromeTab statuses state i s
  | i, s :: rest =>
      chromeTab statuses state i s ++ ((sgr [90] ++ ['|']) ++ RESET) ++
        chromeTabs statuses state (i + 1) rest

/-- The `left.join("")` part of `formatChromeLine`. -/
def chromeLeft (statuses : List (String × SessionStatus)) (state : AppState) :
    List Char :=
  ((sgr [1, 32] ++ " hydra ".data) ++ RESET) ++
  ((sgr [90] ++ "| ".data) ++ RESET) ++
  (if state.mode = .creatingSession then (sgr [33] ++ "[CREATE] ".data) ++ RESET
   else if state.mode = .confirmingClose then (sgr [33] ++ "[CLOSE?] ".data) ++ RESET
   else if state.mode.isGit then (sgr [35] ++ "[GIT] ".data) ++ RESET
   else []) ++
  (if state.sessions = [] then (sgr [90] ++ "no sessions".data) ++ RESET
   else chromeTabs statuses state 0 state.sessions) ++
  (match state.sessions.find? (fun s => some s.id == state.activeSessionId) with
   | some s =>
       match s.exitCode with
       | some c =>
           (sgr [31] ++ (" exited(".data ++ intChars c ++ [')'])) ++ RESET
       | none => []
   | none => [])

/-- The right-hand keybinding hint of `formatChromeLine`. -/
def rightHelp : List Char :=
  "^B,G:git  ^B,N:new  ^B,W:close  ^B,[/]:tabs  ^B,Q:quit ".data

/-- `formatChromeLine` from `screen-renderer.ts`: left section, a space gap
of `Math.max(1, totalCols - leftLen - rightLen)`, right section. -/
def formatChromeLine (statuses : List (String × SessionStatus))
    (state : AppState) (totalCols : Nat) : List Char :=
  let leftStr := chromeLeft statuses state
  let leftLen := visibleLength leftStr
  let rightLen := rightHelp.length
  let gap := max 1 (totalCols - leftLen - rightLen)
  leftStr ++ List.replicate gap ' ' ++ ((sgr [90] ++ rightHelp) ++ RESET)

theorem stripClosed_chromeTab (statuses : List (String × SessionStatus))
    (state : AppState) (i : Nat) (session : Session) :
    StripClosed (chromeTab statuses state i session) := by
  unfold chromeTab
  refine stripClosed_append (stripClosed_append ?_ ?_) ?_
  · exact stripClosed_noEsc (by decide)
  · exact stripClosed_reset _
  · exact stripClosed_append
      (by split_ifs <;> exact stripClosed_sgr _)
      (stripClosed_reset _)

theorem stripClosed_chromeTabs (statuses : List (String × SessionStatus))
    (state : AppState) : ∀ (i : Nat) (l : List Session),
    StripClosed (chromeTabs statuses state i l) := by
  intro i l
  induction l generalizing i with
  | nil => exact stripClosed_noEsc (by simp [chromeTabs, NoEsc])
  | cons s rest ih =>
      cases rest with
      | nil => exact stripClosed_chromeTab statuses state i s
      | cons t ts =>
          unfold chromeTabs
          refine stripClosed_append (stripClosed_append
            (stripClosed_chromeTab statuses state i s) (stripClosed_reset _)) (ih _)

theorem stripClosed_chromeLeft (statuses : List (String × SessionStatus))
    (state : AppState) : StripClosed (chromeLeft statuses state) := by
  unfold chromeLeft
  refine stripClosed_append (stripClosed_append (stripClosed_append
    (stripClosed_append ?_ ?_) ?_) ?_) ?_
  · exact stripClosed_reset _
  · exact stripClosed_reset _
  · split_ifs
    · exact stripClosed_reset _
    · exact stripClosed_reset _
    · exact stripClosed_reset _
    · exact stripClosed_noEsc (by simp [NoEsc])
  · split_ifs
    · exact stripClosed_reset _
    · exact stripClosed_chromeTabs statuses state 0 state.sessions
  · cases hf : state.sessions.find? (fun s => some s.id == state.activeSessionId) with
    | none => exact stripClosed_noEsc (by simp [NoEsc])
    | some s =>
        show StripClosed (match s.exitCode with
          | some c => (sgr [31] ++ (" exited(".data ++ intChars c ++ [')'])) ++ RESET
          | none => [])
        cases s.exitCode with
        | none => exact stripClosed_noEsc (by simp [NoEsc])
        | some c => exact stripClosed_reset _

/-- C9 (amended): the chrome line's visible length (its length after
stripping CSI-SGR sequences) is `leftLen + max(1, totalCols - leftLen -
rightLen) + rightLen`; it equals `totalCols` exactly when `totalCols ≥
leftLen + rightLen + 1`, i.e., when the terminal is wide enough — for
narrower terminals the clamped one-space gap makes the line overflow
`totalCols`. -/
theorem chrome_line_visible_width :
    (∀ (statuses : List (String × SessionStatus)) (state : AppState)
        (totalCols : Nat),
      visibleLength (formatChromeLine statuses state totalCols) =
        visibleLength (chromeLeft statuses state) +
          max 1 (totalCols - visibleLength (chromeLeft statuses state) -
            rightHelp.length) +
          rightHelp.length) ∧
    (∀ (statuses : List (String × SessionStatus)) (state : AppState)
        (totalCols : Nat),
      visibleLength (chromeLeft statuses state) + rightHelp.length + 1 ≤ totalCols →
      visibleLength (formatChromeLine statuses state totalCols) = totalCols) := by
  have key : ∀ (statuses : List (String × SessionStatus)) (state : AppState)
      (totalCols : Nat),
      visibleLength (formatChromeLine statuses state totalCols) =
        visibleLength (chromeLeft statuses state) +
          max 1 (totalCols - visibleLength (chromeLeft statuses state) -
            rightHelp.length) +
          rightHelp.length := by
    intro statuses state totalCols
    show visibleLength (chromeLeft statuses state ++
        List.replicate (max 1 (totalCols - visibleLength (chromeLeft statuses state) -
          rightHelp.length)) ' ' ++ ((sgr [90] ++ rightHelp) ++ RESET)) = _
    set L := chromeLeft statuses state with hL
    set g := max 1 (totalCols - visibleLength L - rightHelp.length) with hg
    have hpad : NoEsc (List.replicate g ' ') := by
      intro h
      have := List.eq_of_mem_replicate h
      exact absurd this (by decide)
    have hhelp : NoEsc rightHelp := by decide
    unfold visibleLength
    rw [List.append_assoc, hL, stripClosed_chromeLeft statuses state, ← hL,
      stripClosed_noEsc hpad,
      show (sgr [90] ++ rightHelp) ++ RESET = sgr [90] ++ (rightHelp ++ RESET) by simp,
      stripSgr_sgr_append,
      show RESET = sgr [0] from rfl]
    unfold stripSgr
    rw [replaceAll_append_noEsc sgrMatcher_ne_esc hhelp,
      replaceAll_noEsc sgrMatcher_ne_esc hpad]
    have hr0 : replaceAll sgrMatcher [] (sgr [0]) = [] := stripSgr_sgr [0]
    rw [hr0]
    simp [List.length_replicate, visibleLength, stripSgr, Nat.add_assoc]
  refine ⟨key, fun statuses state totalCols hwide => ?_⟩
  rw [key statuses state totalCols]
  omega

/-- Witness for C9's amended theorem: on the empty-session state with a
200-column terminal, the chrome line's visible length is exactly 200. -/
theorem chrome_line_visible_width_witness :
    visibleLength (formatChromeLine [] initialState 200) = 200 :=
  chrome_line_visible_width.2 [] initialState 200 (by decide)

/-- C9 counterexample: on a 10-column terminal with no sessions the chrome
line's visible length is 76, not 10 — `Math.max(1, …)` clamps the gap to
one space and the line overflows the terminal width. -/
theorem chrome_line_width_counterexample :
    visibleLength (formatChromeLine [] initialState 10) = 76 ∧ (76 : Nat) ≠ 10 := by
  decide

/-! ## Pass-through filtering (`ScreenRenderer.writePassthrough`)

The six filter regexes of `ScreenRenderer` applied by sequential global
`.replace` calls.  Each is deterministic at a given start position, so a
prefix matcher captures it exactly (for `DECSTBM_RE`, the digit runs are
maximal and the optional `;` is forced by the following character; for
`ALT_SCREEN_RE`, the alternatives are tried in source order). -/

/-- Prefix matcher for `DECSTBM_RE = /\x1b\[\d*;?\d*r/`. -/
def decstbmMatcher (s : List Char) : Option Nat :=
  if s.take 2 = ['\x1b', '['] then
    let rest := s.drop 2
    let d1 := rest.takeWhile Char.isDigit
    let r1 := rest.drop d1.length
    if r1.head? = some ';' then
      let d2 := (r1.drop 1).takeWhile Char.isDigit
      if (r1.drop 1).get? d2.length = some 'r' then
        some (2 + d1.length + 1 + d2.length + 1)
      else none
    else if r1.head? = some 'r' then some (2 + d1.length + 1)
    else none
  else none

/-- Prefix matcher for `ALT_SCREEN_RE = /\x1b\[\?(?:1049|47|1047)[hl]/`. -/
def altMatcher (s : List Char) : Option Nat :=
  if s.take 3 = ['\x1b', '[', '?'] then
    let rest := s.drop 3
    if rest.take 4 = ['1', '0', '4', '9'] ∧
        (rest.get? 4 = some 'h' ∨ rest.get? 4 = some 'l') then some 8
    else if rest.take 2 = ['4', '7'] ∧
        (rest.get? 2 = some 'h' ∨ rest.get? 2 = some 'l') then some 6
    else if rest.take 4 = ['1', '0', '4', '7'] ∧
        (rest.get? 4 = some 'h' ∨ rest.get? 4 = some 'l') then some 8
    else none
  else none

/-- Prefix matcher for `KITTY_KBD_RE = /\x1b\[>[0-9;]*u/`. -/
def kittyMatcher (s : List Char) : Option Nat :=
  if s.take 3 = ['\x1b', '[', '>'] then
    let ps := (s.drop 3).takeWhile isParamChar
    if (s.drop 3).get? ps.length = some 'u' then some (3 + ps.length + 1) else none
  else none

/-- Prefix matcher for `DSR_RE = /\x1b\[6n/`. -/
def dsrMatcher (s : List Char) : Option Nat :=
  if s.take 4 = ['\x1b', '[', '6', 'n'] then some 4 else none

/-- Prefix matcher for `DA_RE = /\x1b\[[>=]?c/`. -/
def daMatcher (s : List Char) : Option Nat :=
  if s.take 4 = ['\x1b', '[', '>', 'c'] then some 4
  else if s.take 4 = ['\x1b', '[', '=', 'c'] then some 4
  else if s.take 3 = ['\x1b', '[', 'c'] then some 3
  else none

/-- Prefix matcher for `FOCUS_REPORTING_RE = /\x1b\[\?1004[hl]/`. -/
def focusMatcher (s : List Char) : Option Nat :=
  if s.take 7 = ['\x1b', '[', '?', '1', '0', '0', '4'] ∧
      (s.get? 7 = some 'h' ∨ s.get? 7 = some 'l') then some 8
  else none

/-- The `safe` computation of `ScreenRenderer.writePassthrough`: six
sequential global replacements — DECSTBM rewritten to the compositor's
scroll region `[1, viewportRows]`, the rest stripped — in source order. -/
def writePassthrough (viewportRows : Nat) (data : List Char) : List Char :=
  replaceAll focusMatcher []
    (replaceAll daMatcher []
      (replaceAll dsrMatcher []
        (replaceAll kittyMatcher []
          (replaceAll altMatcher []
            (replaceAll decstbmMatcher (setScrollRegion 1 viewportRows) data)))))

/-- Does the matcher's regex match anywhere in the string? -/
def hasMatchB (m : List Char → Option Nat) : List Char → Bool
  | [] => (m []).isSome
  | c :: cs => (m (c :: cs)).isSome || hasMatchB m cs

/-- C1 counterexample: the six replacements run sequentially and never
rescan earlier passes' output, so stripping can splice new sequences.  On
input `"\x1b[?104" ++ "\x1b[6n" ++ "9h"`, the DSR pass deletes `ESC [ 6 n`
and the output is exactly `ESC [ ? 1049 h` — an alternate-screen toggle in
the pass-through output, which the claim says can never appear. -/
theorem passthrough_splice_counterexample :
    writePassthrough 20 "\x1b[?104\x1b[6n9h".data = "\x1b[?1049h".data ∧
    hasMatchB altMatcher (writePassthrough 20 "\x1b[?104\x1b[6n9h".data) = true := by
  decide

/-! ### Atomic escape-sequence streams

The amended C1 quantifies over byte streams in which every ESC begins a
complete escape sequence of one of the filtered kinds (the realistic PTY
output shape; the counterexample shows the claim fails when sequences are
split across the patterns).  `VtTok` is that token language. -/

/-- `h` for set / `l` for reset in a private-mode toggle. -/
def hlChar (enable : Bool) : Char := if enable then 'h' else 'l'

inductive VtTok
  | text (s : List Char)
  | decstbm (d1 d2 : List Char)
  | decstbmReset
  | altScreen (code : Nat) (enable : Bool)
  | kitty (params : List Char)
  | dsr
  | da (pre : Option Char)
  | focus (enable : Bool)
deriving DecidableEq, Repr

def VtTok.render : VtTok → List Char
  | .text s => s
  | .decstbm d1 d2 => '\x1b' :: '[' :: (d1 ++ ';' :: (d2 ++ ['r']))
  | .decstbmReset => ['\x1b', '[', 'r']
  | .altScreen code enable => '\x1b' :: '[' :: '?' :: (natChars code ++ [hlChar enable])
  | .kitty params => '\x1b' :: '[' :: '>' :: (params ++ ['u'])
  | .dsr => ['\x1b', '[', '6', 'n']
  | .da pre => '\x1b' :: '[' :: (match pre with | some c => [c, 'c'] | none => ['c'])
  | .focus enable => ['\x1b', '[', '?', '1', '0', '0', '4', hlChar enable]

def VtTok.wf : VtTok → Prop
  | .text s => NoEsc s
  | .decstbm d1 d2 => (∀ c ∈ d1, c.isDigit = true) ∧ (∀ c ∈ d2, c.isDigit = true)
  | .altScreen code _ => code = 1049 ∨ code = 47 ∨ code = 1047
  | .kitty params => ∀ c ∈ params, isParamChar c = true
  | .da pre => pre = none ∨ pre = some '>' ∨ pre = some '='
  | _ => True

def renderAll (ts : List VtTok) : List Char := (ts.map VtTok.render).join

theorem renderAll_nil : renderAll [] = [] := rfl

theorem renderAll_cons (t : VtTok) (ts : List VtTok) :
    renderAll (t :: ts) = t.render ++ renderAll ts := by
  simp [renderAll]

theorem renderAll_append (a b : List VtTok) :
    renderAll (a ++ b) = renderAll a ++ renderAll b := by
  simp [renderAll]

/-- Generic sequential-replacement pass over an atomic token stream: each
token is either kept verbatim (no match can start at it) or replaced whole.
`f` is the token-level effect of the pass. -/
theorem replaceAll_pass (m : List Char → Option Nat) (r : List Char)
    (f : VtTok → List VtTok)
    (hEsc : ∀ c cs, c ≠ '\x1b' → m (c :: cs) = none)
    (hTok : ∀ t : VtTok, t.wf →
      (f t = [t] ∧ ((∃ s, t = .text s) ∨
        (∃ body, t.render = '\x1b' :: body ∧ NoEsc body ∧
          ∀ u, m (t.render ++ u) = none))) ∨
      ((∀ u, m (t.render ++ u) = some t.render.length) ∧
        (∃ c body, t.render = c :: body) ∧ renderAll (f t) = r)) :
    ∀ ts : List VtTok, (∀ t ∈ ts, t.wf) →
      replaceAll m r (renderAll ts) = renderAll (ts.flatMap f) := by
  intro ts hwf
  induction ts with
  | nil => simp [renderAll_nil, replaceAll_nil]
  | cons t rest ih =>
      have hwt : t.wf := hwf t (by simp)
      have hwr : ∀ x ∈ rest, x.wf := fun x hx => hwf x (by simp [hx])
      rw [renderAll_cons, List.flatMap_cons, renderAll_append]
      rcases hTok t hwt with ⟨hft, hkeep⟩ | ⟨hmatch, ⟨c, body, hcb⟩, hfr⟩
      · rcases hkeep with ⟨s, rfl⟩ | ⟨body, hrb, hbody, hnone⟩
        · have hs : NoEsc s := hwt
          rw [show (VtTok.text s).render = s from rfl,
            replaceAll_append_noEsc hEsc hs, ih hwr, hft]
          simp [renderAll_cons, renderAll_nil, VtTok.render]
        · rw [hrb, replaceAll_token_skip hEsc hbody
              (by rw [← hrb]; exact hnone (renderAll rest)),
            ih hwr, hft]
          simp [renderAll_cons, renderAll_nil, hrb]
      · have hm' : m ((c :: body) ++ renderAll rest) = some (body.length + 1) := by
          have := hmatch (renderAll rest)
          rw [hcb] at this
          simpa using this
        rw [hcb, replaceAll_token hm', ih hwr, ← hfr]

theorem wf_flatMap {f : VtTok → List VtTok}
    (hf : ∀ t : VtTok, t.wf → ∀ t' ∈ f t, t'.wf) :
    ∀ ts : List VtTok, (∀ t ∈ ts, t.wf) → ∀ t' ∈ ts.flatMap f, t'.wf := by
  intro ts hwf t' ht'
  obtain ⟨t, ht, htf⟩ := List.mem_flatMap.mp ht'
  exact hf t (hwf t ht) t' htf

/-! ### Head-mismatch and per-token matcher facts -/

theorem decstbmMatcher_ne_esc : ∀ (c : Char) (cs : List Char), c ≠ '\x1b' →
    decstbmMatcher (c :: cs) = none := by
  intro c cs hc
  have h2 : (c :: cs).take 2 ≠ ['\x1b', '['] := by cases cs <;> simp [hc]
  unfold decstbmMatcher
  rw [if_neg h2]

theorem altMatcher_ne_esc : ∀ (c : Char) (cs : List Char), c ≠ '\x1b' →
    altMatcher (c :: cs) = none := by
  intro c cs hc
  have h3 : (c :: cs).take 3 ≠ ['\x1b', '[', '?'] := by
    cases cs with
    | nil => simp
    | cons b bs => cases bs <;> simp [hc]
  unfold altMatcher
  rw [if_neg h3]

theorem kittyMatcher_ne_esc : ∀ (c : Char) (cs : List Char), c ≠ '\x1b' →
    kittyMatcher (c :: cs) = none := by
  intro c cs hc
  have h3 : (c :: cs).take 3 ≠ ['\x1b', '[', '>'] := by
    cases cs with
    | nil => simp
    | cons b bs => cases bs <;> simp [hc]
  unfold kittyMatcher
  rw [if_neg h3]

theorem dsrMatcher_ne_esc : ∀ (c : Char) (cs : List Char), c ≠ '\x1b' →
    dsrMatcher (c :: cs) = none := by
  intro c cs hc
  have h4 : (c :: cs).take 4 ≠ ['\x1b', '[', '6', 'n'] := by
    cases cs with
    | nil => simp
    | cons b bs =>
        cases bs with
        | nil => simp
        | cons d ds => cases ds <;> simp [hc]
  unfold dsrMatcher
  rw [if_neg h4]

theorem daMatcher_ne_esc : ∀ (c : Char) (cs : List Char), c ≠ '\x1b' →
    daMatcher (c :: cs) = none := by
  intro c cs hc
  have h4 : ∀ (x y z : Char), (c :: cs).take 4 ≠ ['\x1b', x, y, z] := by
    intro x y z
    cases cs with
    | nil => simp
    | cons b bs =>
        cases bs with
        | nil => simp [hc]
        | cons d ds => cases ds <;> simp [hc]
  have h3 : (c :: cs).take 3 ≠ ['\x1b', '[', 'c'] := by
    cases cs with
    | nil => simp
    | cons b bs => cases bs <;> simp [hc]
  unfold daMatcher
  rw [if_neg (h4 '[' '>' 'c'), if_neg (h4 '[' '=' 'c'), if_neg h3]

theorem focusMatcher_ne_esc : ∀ (c : Char) (cs : List Char), c ≠ '\x1b' →
    focusMatcher (c :: cs) = none := by
  intro c cs hc
  have hT : (c :: cs).take 7 = c :: cs.take 6 := rfl
  have h7 : (c :: cs).take 7 ≠ ['\x1b', '[', '?', '1', '0', '0', '4'] := by
    rw [hT]
    intro h
    injection h with h1 _
    exact hc h1
  unfold focusMatcher
  rw [if_neg (fun hconj => h7 hconj.1)]

theorem decstbmMatcher_cons (rest : List Char) :
    decstbmMatcher ('\x1b' :: '[' :: rest) =
      (if (rest.drop (rest.takeWhile Char.isDigit).length).head? = some ';' then
        (if ((rest.drop (rest.takeWhile Char.isDigit).length).drop 1).get?
            (((rest.drop (rest.takeWhile Char.isDigit).length).drop 1).takeWhile
              Char.isDigit).length = some 'r' then
          some (2 + (rest.takeWhile Char.isDigit).length + 1 +
            (((rest.drop (rest.takeWhile Char.isDigit).length).drop 1).takeWhile
              Char.isDigit).length + 1)
        else none)
      else if (rest.drop (rest.takeWhile Char.isDigit).length).head? = some 'r' then
        some (2 + (rest.takeWhile Char.isDigit).length + 1)
      else none) := by
  unfold decstbmMatcher
  rw [if_pos (by simp)]
  rfl

theorem decstbmMatcher_at_decstbm {d1 d2 : List Char} (u : List Char)
    (h1 : ∀ c ∈ d1, c.isDigit = true) (h2 : ∀ c ∈ d2, c.isDigit = true) :
    decstbmMatcher (('\x1b' :: '[' :: (d1 ++ ';' :: (d2 ++ ['r']))) ++ u) =
      some ('\x1b' :: '[' :: (d1 ++ ';' :: (d2 ++ ['r']))).length := by
  have hsh : (('\x1b' :: '[' :: (d1 ++ ';' :: (d2 ++ ['r']))) ++ u) =
      '\x1b' :: '[' :: (d1 ++ ';' :: (d2 ++ 'r' :: u)) := by simp
  rw [hsh, decstbmMatcher_cons]
  rw [takeWhile_all_append h1 (by decide), List.drop_left' rfl]
  simp only [List.head?_cons, Option.some.injEq, if_pos rfl, List.drop_succ_cons,
    List.drop_zero]
  rw [takeWhile_all_append h2 (by decide), get?_append_self]
  simp [List.length_append]
  omega

theorem decstbmMatcher_at_reset (u : List Char) :
    decstbmMatcher (['\x1b', '[', 'r'] ++ u) = some 3 := by
  have hsh : (['\x1b', '[', 'r'] ++ u) = '\x1b' :: '[' :: 'r' :: u := by simp
  rw [hsh, decstbmMatcher_cons]
  rw [List.takeWhile_cons_of_neg (by decide)]
  simp

theorem decstbmMatcher_none_3rd {c : Char} (h1 : c.isDigit = false)
    (h2 : c ≠ ';') (h3 : c ≠ 'r') (tail : List Char) :
    decstbmMatcher ('\x1b' :: '[' :: c :: tail) = none := by
  rw [decstbmMatcher_cons]
  rw [List.takeWhile_cons_of_neg (by simp [h1])]
  simp [h2, h3]

theorem decstbmMatcher_none_4th {a d : Char} (ha : d.isDigit = false)
    (h2 : d ≠ ';') (h3 : d ≠ 'r') (hda : a.isDigit = true) (tail : List Char) :
    decstbmMatcher ('\x1b' :: '[' :: a :: d :: tail) = none := by
  rw [decstbmMatcher_cons]
  rw [List.takeWhile_cons_of_pos hda, List.takeWhile_cons_of_neg (by simp [ha])]
  simp [h2, h3]

theorem altMatcher_cons (rest : List Char) :
    altMatcher ('\x1b' :: '[' :: '?' :: rest) =
      (if rest.take 4 = ['1', '0', '4', '9'] ∧
          (rest.get? 4 = some 'h' ∨ rest.get? 4 = some 'l') then some 8
      else if rest.take 2 = ['4', '7'] ∧
          (rest.get? 2 = some 'h' ∨ rest.get? 2 = some 'l') then some 6
      else if rest.take 4 = ['1', '0', '4', '7'] ∧
          (rest.get? 4 = some 'h' ∨ rest.get? 4 = some 'l') then some 8
      else none) := by
  unfold altMatcher
  rw [if_pos (by simp)]
  rfl

theorem altMatcher_none_3rd {c : Char} (hc : c ≠ '?') (tail : List Char) :
    altMatcher ('\x1b' :: '[' :: c :: tail) = none := by
  have h3 : ('\x1b' :: '[' :: c :: tail).take 3 ≠ ['\x1b', '[', '?'] := by
    simp [hc]
  unfold altMatcher
  rw [if_neg h3]

theorem altMatcher_at_alt (code : Nat) (enable : Bool) (u : List Char)
    (hcode : code = 1049 ∨ code = 47 ∨ code = 1047) :
    altMatcher (('\x1b' :: '[' :: '?' :: (natChars code ++ [hlChar enable])) ++ u) =
      some ('\x1b' :: '[' :: '?' :: (natChars code ++ [hlChar enable])).length := by
  rcases hcode with rfl | rfl | rfl
  · rw [show natChars 1049 = ['1', '0', '4', '9'] from by decide]
    cases enable <;> simp [altMatcher, hlChar]
  · rw [show natChars 47 = ['4', '7'] from by decide]
    cases enable <;> simp [altMatcher, hlChar]
  · rw [show natChars 1047 = ['1', '0', '4', '7'] from by decide]
    cases enable <;> simp [altMatcher, hlChar]

theorem altMatcher_none_focus (enable : Bool) (u : List Char) :
    altMatcher (('\x1b' :: '[' :: '?' :: ('1' :: '0' :: '0' :: '4' :: [hlChar enable])) ++ u) =
      none := by
  cases enable <;> simp [altMatcher, hlChar]

theorem kittyMatcher_cons (rest : List Char) :
    kittyMatcher ('\x1b' :: '[' :: '>' :: rest) =
      (if rest.get? (rest.takeWhile isParamChar).length = some 'u'
       then some (3 + (rest.takeWhile isParamChar).length + 1) else none) := by
  unfold kittyMatcher
  rw [if_pos (by simp)]
  rfl

theorem kittyMatcher_none_3rd {c : Char} (hc : c ≠ '>') (tail : List Char) :
    kittyMatcher ('\x1b' :: '[' :: c :: tail) = none := by
  have h3 : ('\x1b' :: '[' :: c :: tail).take 3 ≠ ['\x1b', '[', '>'] := by
    simp [hc]
  unfold kittyMatcher
  rw [if_neg h3]

theorem kittyMatcher_at_kitty {params : List Char} (u : List Char)
    (hp : ∀ c ∈ params, isParamChar c = true) :
    kittyMatcher (('\x1b' :: '[' :: '>' :: (params ++ ['u'])) ++ u) =
      some ('\x1b' :: '[' :: '>' :: (params ++ ['u'])).length := by
  have hsh : (('\x1b' :: '[' :: '>' :: (params ++ ['u'])) ++ u) =
      '\x1b' :: '[' :: '>' :: (params ++ 'u' :: u) := by simp
  rw [hsh, kittyMatcher_cons, takeWhile_all_append hp (by decide), get?_append_self,
    if_pos rfl]
  simp [List.length_append]
  omega

theorem kittyMatcher_none_daGt (u : List Char) :
    kittyMatcher ('\x1b' :: '[' :: '>' :: 'c' :: u) = none := by
  rw [kittyMatcher_cons, List.takeWhile_cons_of_neg (by decide)]
  simp

theorem dsrMatcher_none_3rd {c : Char} (hc : c ≠ '6') (tail : List Char) :
    dsrMatcher ('\x1b' :: '[' :: c :: tail) = none := by
  have h4 : ('\x1b' :: '[' :: c :: tail).take 4 ≠ ['\x1b', '[', '6', 'n'] := by
    cases tail <;> simp [hc]
  unfold dsrMatcher
  rw [if_neg h4]

theorem dsrMatcher_none_4th {a d : Char} (hd : d ≠ 'n') (tail : List Char) :
    dsrMatcher ('\x1b' :: '[' :: a :: d :: tail) = none := by
  have h4 : ('\x1b' :: '[' :: a :: d :: tail).take 4 ≠ ['\x1b', '[', '6', 'n'] := by
    simp [hd]
  unfold dsrMatcher
  rw [if_neg h4]

theorem daMatcher_none_3rd {c : Char} (h1 : c ≠ '>') (h2 : c ≠ '=')
    (h3 : c ≠ 'c') (tail : List Char) :
    daMatcher ('\x1b' :: '[' :: c :: tail) = none := by
  have ha : ∀ (z : Char), ('\x1b' :: '[' :: c :: tail).take 4 ≠ ['\x1b', '[', '>', z] := by
    intro z; cases tail <;> simp [h1]
  have hb : ∀ (z : Char), ('\x1b' :: '[' :: c :: tail).take 4 ≠ ['\x1b', '[', '=', z] := by
    intro z; cases tail <;> simp [h2]
  have hc3 : ('\x1b' :: '[' :: c :: tail).take 3 ≠ ['\x1b', '[', 'c'] := by
    simp [h3]
  unfold daMatcher
  rw [if_neg (ha 'c'), if_neg (hb 'c'), if_neg hc3]

theorem focusMatcher_none_3rd {c : Char} (hc : c ≠ '?') (tail : List Char) :
    focusMatcher ('\x1b' :: '[' :: c :: tail) = none := by
  have h7 : ('\x1b' :: '[' :: c :: tail).take 7 ≠ ['\x1b', '[', '?', '1', '0', '0', '4'] := by
    have hT : ('\x1b' :: '[' :: c :: tail).take 7 = '\x1b' :: '[' :: c :: tail.take 4 := rfl
    rw [hT]
    intro h
    injection h with _ h
    injection h with _ h
    injection h with h1 _
    exact hc h1
  unfold focusMatcher
  rw [if_neg (fun hconj => h7 hconj.1)]

/-! ### Token bodies contain no ESC, and remaining cross-token facts -/

theorem noEsc_decstbm_body {d1 d2 : List Char}
    (h1 : ∀ c ∈ d1, c.isDigit = true) (h2 : ∀ c ∈ d2, c.isDigit = true) :
    NoEsc ('[' :: (d1 ++ ';' :: (d2 ++ ['r']))) := by
  intro h
  rcases List.mem_cons.mp h with h | h
  · exact absurd h (by decide)
  rcases List.mem_append.mp h with h | h
  · exact absurd (h1 _ h) (by decide)
  rcases List.mem_cons.mp h with h | h
  · exact absurd h (by decide)
  rcases List.mem_append.mp h with h | h
  · exact absurd (h2 _ h) (by decide)
  · exact absurd h (by decide)

theorem noEsc_alt_body (code : Nat) (enable : Bool) :
    NoEsc ('[' :: '?' :: (natChars code ++ [hlChar enable])) := by
  intro h
  rcases List.mem_cons.mp h with h | h
  · exact absurd h (by decide)
  rcases List.mem_cons.mp h with h | h
  · exact absurd h (by decide)
  rcases List.mem_append.mp h with h | h
  · exact natChars_noEsc code h
  · cases enable <;> exact absurd h (by decide)

theorem noEsc_kitty_body {params : List Char}
    (hp : ∀ c ∈ params, isParamChar c = true) :
    NoEsc ('[' :: '>' :: (params ++ ['u'])) := by
  intro h
  rcases List.mem_cons.mp h with h | h
  · exact absurd h (by decide)
  rcases List.mem_cons.mp h with h | h
  · exact absurd h (by decide)
  rcases List.mem_append.mp h with h | h
  · exact absurd (hp _ h) (by decide)
  · exact absurd h (by decide)

/-- The third character of a rendered DECSTBM sequence is a digit or `;`. -/
theorem decstbm_3rd {d1 d2 : List Char} (u : List Char)
    (h1 : ∀ c ∈ d1, c.isDigit = true) :
    ∃ c tail, (VtTok.decstbm d1 d2).render ++ u = '\x1b' :: '[' :: c :: tail ∧
      (c = ';' ∨ c.isDigit = true) := by
  cases d1 with
  | nil => exact ⟨';', d2 ++ 'r' :: u, by simp [VtTok.render], .inl rfl⟩
  | cons a d1' =>
      exact ⟨a, d1' ++ ';' :: (d2 ++ 'r' :: u), by simp [VtTok.render],
        .inr (h1 a (by simp))⟩

theorem dsrMatcher_none_decstbm {d1 d2 : List Char} (u : List Char)
    (h1 : ∀ c ∈ d1, c.isDigit = true) :
    dsrMatcher ((VtTok.decstbm d1 d2).render ++ u) = none := by
  match d1, h1 with
  | [], _ =>
      rw [show (VtTok.decstbm [] d2).render ++ u =
          '\x1b' :: '[' :: ';' :: (d2 ++ 'r' :: u) by simp [VtTok.render]]
      exact dsrMatcher_none_3rd (by decide) _
  | [a], _ =>
      rw [show (VtTok.decstbm [a] d2).render ++ u =
          '\x1b' :: '[' :: a :: ';' :: (d2 ++ 'r' :: u) by simp [VtTok.render]]
      exact dsrMatcher_none_4th (by decide) _
  | a :: b :: r, h =>
      rw [show (VtTok.decstbm (a :: b :: r) d2).render ++ u =
          '\x1b' :: '[' :: a :: b :: (r ++ ';' :: (d2 ++ 'r' :: u)) by
            simp [VtTok.render]]
      exact dsrMatcher_none_4th (ne_of_isDigit (h b (by simp)) (by decide)) _

theorem daMatcher_none_kitty {params : List Char} (u : List Char)
    (hp : ∀ c ∈ params, isParamChar c = true) :
    daMatcher (('\x1b' :: '[' :: '>' :: (params ++ ['u'])) ++ u) = none := by
  rw [show ('\x1b' :: '[' :: '>' :: (params ++ ['u'])) ++ u =
      '\x1b' :: '[' :: '>' :: (params ++ 'u' :: u) by simp]
  have h1 : ('\x1b' :: '[' :: '>' :: (params ++ 'u' :: u)).take 4 ≠
      ['\x1b', '[', '>', 'c'] := by
    cases params with
    | nil => simp
    | cons p ps =>
        have : p ≠ 'c' := ne_of_isParamChar (hp p (by simp)) (by decide)
        simp [this]
  have h2 : ('\x1b' :: '[' :: '>' :: (params ++ 'u' :: u)).take 4 ≠
      ['\x1b', '[', '=', 'c'] := by
    cases params <;> simp
  have h3 : ('\x1b' :: '[' :: '>' :: (params ++ 'u' :: u)).take 3 ≠
      ['\x1b', '[', 'c'] := by simp
  unfold daMatcher
  rw [if_neg h1, if_neg h2, if_neg h3]

theorem focusMatcher_none_alt (code : Nat) (enable : Bool) (u : List Char)
    (hcode : code = 1049 ∨ code = 47 ∨ code = 1047) :
    focusMatcher (('\x1b' :: '[' :: '?' :: (natChars code ++ [hlChar enable])) ++ u) =
      none := by
  rcases hcode with rfl | rfl | rfl
  · rw [show natChars 1049 = ['1', '0', '4', '9'] from by decide]
    cases enable <;> simp [focusMatcher, hlChar]
  · rw [show natChars 47 = ['4', '7'] from by decide]
    cases enable <;> simp [focusMatcher, hlChar]
  · rw [show natChars 1047 = ['1', '0', '4', '7'] from by decide]
    cases enable <;> simp [focusMatcher, hlChar]

theorem dsrMatcher_at_dsr (u : List Char) :
    dsrMatcher (['\x1b', '[', '6', 'n'] ++ u) = some 4 := by
  simp [dsrMatcher]

theorem daMatcher_at_da (pre : Option Char)
    (hpre : pre = none ∨ pre = some '>' ∨ pre = some '=') (u : List Char) :
    daMatcher ((VtTok.da pre).render ++ u) = some (VtTok.da pre).render.length := by
  rcases hpre with rfl | rfl | rfl <;> simp [daMatcher, VtTok.render]

theorem focusMatcher_at_focus (enable : Bool) (u : List Char) :
    focusMatcher ((VtTok.focus enable).render ++ u) =
      some (VtTok.focus enable).render.length := by
  cases enable <;> simp [focusMatcher, VtTok.render, hlChar]

theorem noEsc_focus_body (enable : Bool) :
    NoEsc ('[' :: '?' :: '1' :: '0' :: '0' :: '4' :: [hlChar enable]) := by
  cases enable <;> decide

theorem altMatcher_none_decstbm {d1 d2 : List Char} (u : List Char)
    (h1 : ∀ c ∈ d1, c.isDigit = true) :
    altMatcher ((VtTok.decstbm d1 d2).render ++ u) = none := by
  obtain ⟨c, tail, heq, hc⟩ := @decstbm_3rd d1 d2 u h1
  rw [heq]
  refine altMatcher_none_3rd ?_ tail
  rcases hc with rfl | hd
  · decide
  · exact ne_of_isDigit hd (by decide)

theorem kittyMatcher_none_decstbm {d1 d2 : List Char} (u : List Char)
    (h1 : ∀ c ∈ d1, c.isDigit = true) :
    kittyMatcher ((VtTok.decstbm d1 d2).render ++ u) = none := by
  obtain ⟨c, tail, heq, hc⟩ := @decstbm_3rd d1 d2 u h1
  rw [heq]
  refine kittyMatcher_none_3rd ?_ tail
  rcases hc with rfl | hd
  · decide
  · exact ne_of_isDigit hd (by decide)

theorem daMatcher_none_decstbm {d1 d2 : List Char} (u : List Char)
    (h1 : ∀ c ∈ d1, c.isDigit = true) :
    daMatcher ((VtTok.decstbm d1 d2).render ++ u) = none := by
  obtain ⟨c, tail, heq, hc⟩ := @decstbm_3rd d1 d2 u h1
  rw [heq]
  rcases hc with rfl | hd
  · exact daMatcher_none_3rd (by decide) (by decide) (by decide) tail
  · exact daMatcher_none_3rd (ne_of_isDigit hd (by decide))
      (ne_of_isDigit hd (by decide)) (ne_of_isDigit hd (by decide)) tail

theorem focusMatcher_none_decstbm {d1 d2 : List Char} (u : List Char)
    (h1 : ∀ c ∈ d1, c.isDigit = true) :
    focusMatcher ((VtTok.decstbm d1 d2).render ++ u) = none := by
  obtain ⟨c, tail, heq, hc⟩ := @decstbm_3rd d1 d2 u h1
  rw [heq]
  refine focusMatcher_none_3rd ?_ tail
  rcases hc with rfl | hd
  · decide
  · exact ne_of_isDigit hd (by decide)

/-! ### The six replacement passes, token level -/

/-- Token effect of `replace(DECSTBM_RE, setScrollRegion(1, innerRows))`. -/
def passDecstbm (n : Nat) : VtTok → List VtTok
  | .decstbm _ _ => [.decstbm (natChars 1) (natChars n)]
  | .decstbmReset => [.decstbm (natChars 1) (natChars n)]
  | t => [t]

/-- Token effect of `replace(ALT_SCREEN_RE, "")`. -/
def passAlt : VtTok → List VtTok
  | .altScreen _ _ => []
  | t => [t]

/-- Token effect of `replace(KITTY_KBD_RE, "")`. -/
def passKitty : VtTok → List VtTok
  | .kitty _ => []
  | t => [t]

/-- Token effect of `replace(DSR_RE, "")`. -/
def passDsr : VtTok → List VtTok
  | .dsr => []
  | t => [t]

/-- Token effect of `replace(DA_RE, "")`. -/
def passDa : VtTok → List VtTok
  | .da _ => []
  | t => [t]

/-- Token effect of `replace(FOCUS_REPORTING_RE, "")`. -/
def passFocus : VtTok → List VtTok
  | .focus _ => []
  | t => [t]

/-- The compositor's replacement token renders to `setScrollRegion 1 n`. -/
theorem compositor_render (n : Nat) :
    (VtTok.decstbm (natChars 1) (natChars n)).render = setScrollRegion 1 n := by
  simp [VtTok.render, setScrollRegion, escBracket]

theorem wf_passDecstbm (n : Nat) :
    ∀ t : VtTok, t.wf → ∀ t' ∈ passDecstbm n t, t'.wf := by
  intro t hwf t' ht'
  cases t with
  | decstbm d1 d2 =>
      simp only [passDecstbm, List.mem_singleton] at ht'
      subst ht'
      exact ⟨natChars_digits 1, natChars_digits n⟩
  | decstbmReset =>
      simp only [passDecstbm, List.mem_singleton] at ht'
      subst ht'
      exact ⟨natChars_digits 1, natChars_digits n⟩
  | text s => simp only [passDecstbm, List.mem_singleton] at ht'; subst ht'; exact hwf
  | altScreen code enable =>
      simp only [passDecstbm, List.mem_singleton] at ht'; subst ht'; exact hwf
  | kitty params =>
      simp only [passDecstbm, List.mem_singleton] at ht'; subst ht'; exact hwf
  | dsr => simp only [passDecstbm, List.mem_singleton] at ht'; subst ht'; exact hwf
  | da pre => simp only [passDecstbm, List.mem_singleton] at ht'; subst ht'; exact hwf
  | focus enable =>
      simp only [passDecstbm, List.mem_singleton] at ht'; subst ht'; exact hwf

theorem wf_pass_keep {f : VtTok → List VtTok}
    (hf : ∀ t, f t = [t] ∨ f t = []) :
    ∀ t : VtTok, t.wf → ∀ t' ∈ f t, t'.wf := by
  intro t hwf t' ht'
  rcases hf t with h | h <;> rw [h] at ht'
  · rw [List.mem_singleton] at ht'; subst ht'; exact hwf
  · exact absurd ht' (List.not_mem_nil t')

theorem wf_passAlt : ∀ t : VtTok, t.wf → ∀ t' ∈ passAlt t, t'.wf :=
  wf_pass_keep (fun t => by cases t <;> simp [passAlt])

theorem wf_passKitty : ∀ t : VtTok, t.wf → ∀ t' ∈ passKitty t, t'.wf :=
  wf_pass_keep (fun t => by cases t <;> simp [passKitty])

theorem wf_passDsr : ∀ t : VtTok, t.wf → ∀ t' ∈ passDsr t, t'.wf :=
  wf_pass_keep (fun t => by cases t <;> simp [passDsr])

theorem wf_passDa : ∀ t : VtTok, t.wf → ∀ t' ∈ passDa t, t'.wf :=
  wf_pass_keep (fun t => by cases t <;> simp [passDa])

theorem wf_passFocus : ∀ t : VtTok, t.wf → ∀ t' ∈ passFocus t, t'.wf :=
  wf_pass_keep (fun t => by cases t <;> simp [passFocus])

theorem hTok_decstbm (n : Nat) : ∀ t : VtTok, t.wf →
    (passDecstbm n t = [t] ∧ ((∃ s, t = VtTok.text s) ∨
      (∃ body, t.render = '\x1b' :: body ∧ NoEsc body ∧
        ∀ u, decstbmMatcher (t.render ++ u) = none))) ∨
    ((∀ u, decstbmMatcher (t.render ++ u) = some t.render.length) ∧
      (∃ c body, t.render = c :: body) ∧
      renderAll (passDecstbm n t) = setScrollRegion 1 n) := by
  intro t hwf
  cases t with
  | text s => exact .inl ⟨rfl, .inl ⟨s, rfl⟩⟩
  | decstbm d1 d2 =>
      refine .inr ⟨fun u => decstbmMatcher_at_decstbm u hwf.1 hwf.2, ⟨_, _, rfl⟩, ?_⟩
      show renderAll [VtTok.decstbm (natChars 1) (natChars n)] = setScrollRegion 1 n
      rw [renderAll_cons, renderAll_nil, List.append_nil, compositor_render]
  | decstbmReset =>
      refine .inr ⟨fun u => decstbmMatcher_at_reset u, ⟨_, _, rfl⟩, ?_⟩
      show renderAll [VtTok.decstbm (natChars 1) (natChars n)] = setScrollRegion 1 n
      rw [renderAll_cons, renderAll_nil, List.append_nil, compositor_render]
  | altScreen code enable =>
      exact .inl ⟨rfl, .inr ⟨_, rfl, noEsc_alt_body code enable,
        fun u => decstbmMatcher_none_3rd (by decide) (by decide) (by decide) _⟩⟩
  | kitty params =>
      exact .inl ⟨rfl, .inr ⟨_, rfl, noEsc_kitty_body hwf,
        fun u => decstbmMatcher_none_3rd (by decide) (by decide) (by decide) _⟩⟩
  | dsr =>
      exact .inl ⟨rfl, .inr ⟨_, rfl, (by decide : NoEsc ['[', '6', 'n']),
        fun u => decstbmMatcher_none_4th (by decide) (by decide) (by decide)
          (by decide) _⟩⟩
  | da pre =>
      rcases hwf with rfl | rfl | rfl
      · exact .inl ⟨rfl, .inr ⟨_, rfl, (by decide : NoEsc ['[', 'c']),
          fun u => decstbmMatcher_none_3rd (by decide) (by decide) (by decide) _⟩⟩
      · exact .inl ⟨rfl, .inr ⟨_, rfl, (by decide : NoEsc ['[', '>', 'c']),
          fun u => decstbmMatcher_none_3rd (by decide) (by decide) (by decide) _⟩⟩
      · exact .inl ⟨rfl, .inr ⟨_, rfl, (by decide : NoEsc ['[', '=', 'c']),
          fun u => decstbmMatcher_none_3rd (by decide) (by decide) (by decide) _⟩⟩
  | focus enable =>
      exact .inl ⟨rfl, .inr ⟨_, rfl, noEsc_focus_body enable,
        fun u => decstbmMatcher_none_3rd (by decide) (by decide) (by decide) _⟩⟩

theorem hTok_alt : ∀ t : VtTok, t.wf →
    (passAlt t = [t] ∧ ((∃ s, t = VtTok.text s) ∨
      (∃ body, t.render = '\x1b' :: body ∧ NoEsc body ∧
        ∀ u, altMatcher (t.render ++ u) = none))) ∨
    ((∀ u, altMatcher (t.render ++ u) = some t.render.length) ∧
      (∃ c body, t.render = c :: body) ∧ renderAll (passAlt t) = []) := by
  intro t hwf
  cases t with
  | text s => exact .inl ⟨rfl, .inl ⟨s, rfl⟩⟩
  | decstbm d1 d2 =>
      exact .inl ⟨rfl, .inr ⟨_, rfl, noEsc_decstbm_body hwf.1 hwf.2,
        fun u => altMatcher_none_decstbm u hwf.1⟩⟩
  | decstbmReset =>
      exact .inl ⟨rfl, .inr ⟨_, rfl, (by decide : NoEsc ['[', 'r']),
        fun u => altMatcher_none_3rd (by decide) _⟩⟩
  | altScreen code enable =>
      exact .inr ⟨fun u => altMatcher_at_alt code enable u hwf, ⟨_, _, rfl⟩, rfl⟩
  | kitty params =>
      exact .inl ⟨rfl, .inr ⟨_, rfl, noEsc_kitty_body hwf,
        fun u => altMatcher_none_3rd (by decide) _⟩⟩
  | dsr =>
      exact .inl ⟨rfl, .inr ⟨_, rfl, (by decide : NoEsc ['[', '6', 'n']),
        fun u => altMatcher_none_3rd (by decide) _⟩⟩
  | da pre =>
      rcases hwf with rfl | rfl | rfl
      · exact .inl ⟨rfl, .inr ⟨_, rfl, (by decide : NoEsc ['[', 'c']),
          fun u => altMatcher_none_3rd (by decide) _⟩⟩
      · exact .inl ⟨rfl, .inr ⟨_, rfl, (by decide : NoEsc ['[', '>', 'c']),
          fun u => altMatcher_none_3rd (by decide) _⟩⟩
      · exact .inl ⟨rfl, .inr ⟨_, rfl, (by decide : NoEsc ['[', '=', 'c']),
          fun u => altMatcher_none_3rd (by decide) _⟩⟩
  | focus enable =>
      exact .inl ⟨rfl, .inr ⟨_, rfl, noEsc_focus_body enable,
        fun u => altMatcher_none_focus enable u⟩⟩

theorem hTok_kitty : ∀ t : VtTok, t.wf →
    (passKitty t = [t] ∧ ((∃ s, t = VtTok.text s) ∨
      (∃ body, t.render = '\x1b' :: body ∧ NoEsc body ∧
        ∀ u, kittyMatcher (t.render ++ u) = none))) ∨
    ((∀ u, kittyMatcher (t.render ++ u) = some t.render.length) ∧
      (∃ c body, t.render = c :: body) ∧ renderAll (passKitty t) = []) := by
  intro t hwf
  cases t with
  | text s => exact .inl ⟨rfl, .inl ⟨s, rfl⟩⟩
  | decstbm d1 d2 =>
      exact .inl ⟨rfl, .inr ⟨_, rfl, noEsc_decstbm_body hwf.1 hwf.2,
        fun u => kittyMatcher_none_decstbm u hwf.1⟩⟩
  | decstbmReset =>
      exact .inl ⟨rfl, .inr ⟨_, rfl, (by decide : NoEsc ['[', 'r']),
        fun u => kittyMatcher_none_3rd (by decide) _⟩⟩
  | altScreen code enable =>
      exact .inl ⟨rfl, .inr ⟨_, rfl, noEsc_alt_body code enable,
        fun u => kittyMatcher_none_3rd (by decide) _⟩⟩
  | kitty params =>
      exact .inr ⟨fun u => kittyMatcher_at_kitty u hwf, ⟨_, _, rfl⟩, rfl⟩
  | dsr =>
      exact .inl ⟨rfl, .inr ⟨_, rfl, (by decide : NoEsc ['[', '6', 'n']),
        fun u => kittyMatcher_none_3rd (by decide) _⟩⟩
  | da pre =>
      rcases hwf with rfl | rfl | rfl
      · exact .inl ⟨rfl, .inr ⟨_, rfl, (by decide : NoEsc ['[', 'c']),
          fun u => kittyMatcher_none_3rd (by decide) _⟩⟩
      · exact .inl ⟨rfl, .inr ⟨_, rfl, (by decide : NoEsc ['[', '>', 'c']),
          fun u => kittyMatcher_none_daGt u⟩⟩
      · exact .inl ⟨rfl, .inr ⟨_, rfl, (by decide : NoEsc ['[', '=', 'c']),
          fun u => kittyMatcher_none_3rd (by decide) _⟩⟩
  | focus enable =>
      exact .inl ⟨rfl, .inr ⟨_, rfl, noEsc_focus_body enable,
        fun u => kittyMatcher_none_3rd (by decide) _⟩⟩

theorem hTok_dsr : ∀ t : VtTok, t.wf →
    (passDsr t = [t] ∧ ((∃ s, t = VtTok.text s) ∨
      (∃ body, t.render = '\x1b' :: body ∧ NoEsc body ∧
        ∀ u, dsrMatcher (t.render ++ u) = none))) ∨
    ((∀ u, dsrMatcher (t.render ++ u) = some t.render.length) ∧
      (∃ c body, t.render = c :: body) ∧ renderAll (passDsr t) = []) := by
  intro t hwf
  cases t with
  | text s => exact .inl ⟨rfl, .inl ⟨s, rfl⟩⟩
  | decstbm d1 d2 =>
      exact .inl ⟨rfl, .inr ⟨_, rfl, noEsc_decstbm_body hwf.1 hwf.2,
        fun u => dsrMatcher_none_decstbm u hwf.1⟩⟩
  | decstbmReset =>
      exact .inl ⟨rfl, .inr ⟨_, rfl, (by decide : NoEsc ['[', 'r']),
        fun u => dsrMatcher_none_3rd (by decide) _⟩⟩
  | altScreen code enable =>
      exact .inl ⟨rfl, .inr ⟨_, rfl, noEsc_alt_body code enable,
        fun u => dsrMatcher_none_3rd (by decide) _⟩⟩
  | kitty params =>
      exact .inl ⟨rfl, .inr ⟨_, rfl, noEsc_kitty_body hwf,
        fun u => dsrMatcher_none_3rd (by decide) _⟩⟩
  | dsr =>
      exact .inr ⟨fun u => dsrMatcher_at_dsr u, ⟨_, _, rfl⟩, rfl⟩
  | da pre =>
      rcases hwf with rfl | rfl | rfl
      · exact .inl ⟨rfl, .inr ⟨_, rfl, (by decide : NoEsc ['[', 'c']),
          fun u => dsrMatcher_none_3rd (by decide) _⟩⟩
      · exact .inl ⟨rfl, .inr ⟨_, rfl, (by decide : NoEsc ['[', '>', 'c']),
          fun u => dsrMatcher_none_3rd (by decide) _⟩⟩
      · exact .inl ⟨rfl, .inr ⟨_, rfl, (by decide : NoEsc ['[', '=', 'c']),
          fun u => dsrMatcher_none_3rd (by decide) _⟩⟩
  | focus enable =>
      exact .inl ⟨rfl, .inr ⟨_, rfl, noEsc_focus_body enable,
        fun u => dsrMatcher_none_3rd (by decide) _⟩⟩

theorem hTok_da : ∀ t : VtTok, t.wf →
    (passDa t = [t] ∧ ((∃ s, t = VtTok.text s) ∨
      (∃ body, t.render = '\x1b' :: body ∧ NoEsc body ∧
        ∀ u, daMatcher (t.render ++ u) = none))) ∨
    ((∀ u, daMatcher (t.render ++ u) = some t.render.length) ∧
      (∃ c body, t.render = c :: body) ∧ renderAll (passDa t) = []) := by
  intro t hwf
  cases t with
  | text s => exact .inl ⟨rfl, .inl ⟨s, rfl⟩⟩
  | decstbm d1 d2 =>
      exact .inl ⟨rfl, .inr ⟨_, rfl, noEsc_decstbm_body hwf.1 hwf.2,
        fun u => daMatcher_none_decstbm u hwf.1⟩⟩
  | decstbmReset =>
      exact .inl ⟨rfl, .inr ⟨_, rfl, (by decide : NoEsc ['[', 'r']),
        fun u => daMatcher_none_3rd (by decide) (by decide) (by decide) _⟩⟩
  | altScreen code enable =>
      exact .inl ⟨rfl, .inr ⟨_, rfl, noEsc_alt_body code enable,
        fun u => daMatcher_none_3rd (by decide) (by decide) (by decide) _⟩⟩
  | kitty params =>
      exact .inl ⟨rfl, .inr ⟨_, rfl, noEsc_kitty_body hwf,
        fun u => daMatcher_none_kitty u hwf⟩⟩
  | dsr =>
      exact .inl ⟨rfl, .inr ⟨_, rfl, (by decide : NoEsc ['[', '6', 'n']),
        fun u => daMatcher_none_3rd (by decide) (by decide) (by decide) _⟩⟩
  | da pre =>
      exact .inr ⟨fun u => daMatcher_at_da pre hwf u, ⟨_, _, rfl⟩, rfl⟩
  | focus enable =>
      exact .inl ⟨rfl, .inr ⟨_, rfl, noEsc_focus_body enable,
        fun u => daMatcher_none_3rd (by decide) (by decide) (by decide) _⟩⟩

theorem hTok_focus : ∀ t : VtTok, t.wf →
    (passFocus t = [t] ∧ ((∃ s, t = VtTok.text s) ∨
      (∃ body, t.render = '\x1b' :: body ∧ NoEsc body ∧
        ∀ u, focusMatcher (t.render ++ u) = none))) ∨
    ((∀ u, focusMatcher (t.render ++ u) = some t.render.length) ∧
      (∃ c body, t.render = c :: body) ∧ renderAll (passFocus t) = []) := by
  intro t hwf
  cases t with
  | text s => exact .inl ⟨rfl, .inl ⟨s, rfl⟩⟩
  | decstbm d1 d2 =>
      exact .inl ⟨rfl, .inr ⟨_, rfl, noEsc_decstbm_body hwf.1 hwf.2,
        fun u => focusMatcher_none_decstbm u hwf.1⟩⟩
  | decstbmReset =>
      exact .inl ⟨rfl, .inr ⟨_, rfl, (by decide : NoEsc ['[', 'r']),
        fun u => focusMatcher_none_3rd (by decide) _⟩⟩
  | altScreen code enable =>
      exact .inl ⟨rfl, .inr ⟨_, rfl, noEsc_alt_body code enable,
        fun u => focusMatcher_none_alt code enable u hwf⟩⟩
  | kitty params =>
      exact .inl ⟨rfl, .inr ⟨_, rfl, noEsc_kitty_body hwf,
        fun u => focusMatcher_none_3rd (by decide) _⟩⟩
  | dsr =>
      exact .inl ⟨rfl, .inr ⟨_, rfl, (by decide : NoEsc ['[', '6', 'n']),
        fun u => focusMatcher_none_3rd (by decide) _⟩⟩
  | da pre =>
      rcases hwf with rfl | rfl | rfl
      · exact .inl ⟨rfl, .inr ⟨_, rfl, (by decide : NoEsc ['[', 'c']),
          fun u => focusMatcher_none_3rd (by decide) _⟩⟩
      · exact .inl ⟨rfl, .inr ⟨_, rfl, (by decide : NoEsc ['[', '>', 'c']),
          fun u => focusMatcher_none_3rd (by decide) _⟩⟩
      · exact .inl ⟨rfl, .inr ⟨_, rfl, (by decide : NoEsc ['[', '=', 'c']),
          fun u => focusMatcher_none_3rd (by decide) _⟩⟩
  | focus enable =>
      exact .inr ⟨fun u => focusMatcher_at_focus enable u, ⟨_, _, rfl⟩, rfl⟩

/-! ### The pipeline, end to end -/

/-- Combined token effect of the six sequential replacements. -/
def pipeTok (n : Nat) : VtTok → List VtTok
  | .text s => [.text s]
  | .decstbm _ _ => [.decstbm (natChars 1) (natChars n)]
  | .decstbmReset => [.decstbm (natChars 1) (natChars n)]
  | _ => []

theorem pipeline_flatMap (n : Nat) (ts : List VtTok) :
    (((((ts.flatMap (passDecstbm n)).flatMap passAlt).flatMap passKitty).flatMap
      passDsr).flatMap passDa).flatMap passFocus = ts.flatMap (pipeTok n) := by
  simp only [List.flatMap_assoc]
  congr 1
  funext t
  cases t <;> rfl

/-- On an atomic token stream, `writePassthrough` acts token by token. -/
theorem writePassthrough_tokens (n : Nat) (ts : List VtTok)
    (hwf : ∀ t ∈ ts, t.wf) :
    writePassthrough n (renderAll ts) = renderAll (ts.flatMap (pipeTok n)) := by
  have h1 := wf_flatMap (wf_passDecstbm n) ts hwf
  have h2 := wf_flatMap wf_passAlt _ h1
  have h3 := wf_flatMap wf_passKitty _ h2
  have h4 := wf_flatMap wf_passDsr _ h3
  have h5 := wf_flatMap wf_passDa _ h4
  unfold writePassthrough
  rw [replaceAll_pass decstbmMatcher (setScrollRegion 1 n) (passDecstbm n)
      decstbmMatcher_ne_esc (hTok_decstbm n) ts hwf,
    replaceAll_pass altMatcher [] passAlt altMatcher_ne_esc hTok_alt _ h1,
    replaceAll_pass kittyMatcher [] passKitty kittyMatcher_ne_esc hTok_kitty _ h2,
    replaceAll_pass dsrMatcher [] passDsr dsrMatcher_ne_esc hTok_dsr _ h3,
    replaceAll_pass daMatcher [] passDa daMatcher_ne_esc hTok_da _ h4,
    replaceAll_pass focusMatcher [] passFocus focusMatcher_ne_esc hTok_focus _ h5,
    pipeline_flatMap]

/-- A token the pipeline can emit: ESC-free text, or the compositor's own
scroll-region sequence `setScrollRegion 1 n`. -/
def FinalTok (n : Nat) (t : VtTok) : Prop :=
  (∃ s, t = VtTok.text s ∧ NoEsc s) ∨ t = VtTok.decstbm (natChars 1) (natChars n)

theorem pipeTok_final (n : Nat) :
    ∀ t : VtTok, t.wf → ∀ t' ∈ pipeTok n t, FinalTok n t' := by
  intro t hwf t' ht'
  cases t with
  | text s =>
      simp only [pipeTok, List.mem_singleton] at ht'
      subst ht'
      exact .inl ⟨s, rfl, hwf⟩
  | decstbm d1 d2 =>
      simp only [pipeTok, List.mem_singleton] at ht'
      subst ht'
      exact .inr rfl
  | decstbmReset =>
      simp only [pipeTok, List.mem_singleton] at ht'
      subst ht'
      exact .inr rfl
  | altScreen code enable => exact absurd ht' (List.not_mem_nil t')
  | kitty params => exact absurd ht' (List.not_mem_nil t')
  | dsr => exact absurd ht' (List.not_mem_nil t')
  | da pre => exact absurd ht' (List.not_mem_nil t')
  | focus enable => exact absurd ht' (List.not_mem_nil t')

/-- A head-anchored matcher finds nothing strictly inside an ESC-free block. -/
theorem matcher_none_inside {m : List Char → Option Nat}
    (hEsc : ∀ c cs, c ≠ '\x1b' → m (c :: cs) = none)
    {a : List Char} (ha : NoEsc a) (u : List Char) :
    ∀ i, i < a.length → m (a.drop i ++ u) = none := by
  intro i hi
  cases hd : a.drop i with
  | nil =>
      exfalso
      have hz : a.length - i = 0 := by rw [← List.length_drop, hd]; rfl
      omega
  | cons c tail =>
      have hc : c ∈ a := List.drop_subset i a (by rw [hd]; simp)
      exact hEsc c (tail ++ u) (fun he => ha (he ▸ hc))

/-- In the rendering of a stream of final tokens, a stripped matcher finds no
match at any position. -/
theorem matcher_none_finalToks {m : List Char → Option Nat} (n : Nat)
    (hEsc : ∀ c cs, c ≠ '\x1b' → m (c :: cs) = none)
    (hNil : m [] = none)
    (hC : ∀ u, m ((VtTok.decstbm (natChars 1) (natChars n)).render ++ u) = none) :
    ∀ ts : List VtTok, (∀ t ∈ ts, FinalTok n t) →
      ∀ i, m ((renderAll ts).drop i) = none := by
  intro ts
  induction ts with
  | nil =>
      intro _ i
      rw [renderAll_nil, List.drop_nil]
      exact hNil
  | cons t rest ih =>
      intro hF i
      rw [renderAll_cons]
      rcases Nat.lt_or_ge i t.render.length with hlt | hge
      · rw [List.drop_append_of_le_length (le_of_lt hlt)]
        rcases hF t (by simp) with ⟨s, rfl, hs⟩ | rfl
        · exact matcher_none_inside hEsc hs (renderAll rest) i hlt
        · cases i with
          | zero =>
              rw [List.drop_zero]
              exact hC (renderAll rest)
          | succ j =>
              have hbody : NoEsc ('[' :: (natChars 1 ++ ';' :: (natChars n ++ ['r']))) :=
                noEsc_decstbm_body (natChars_digits 1) (natChars_digits n)
              have hlen : (VtTok.decstbm (natChars 1) (natChars n)).render.length =
                  ('[' :: (natChars 1 ++ ';' :: (natChars n ++ ['r']))).length + 1 := rfl
              have hj : j < ('[' :: (natChars 1 ++ ';' :: (natChars n ++ ['r']))).length := by
                omega
              exact matcher_none_inside hEsc hbody (renderAll rest) j hj
      · obtain ⟨j, rfl⟩ : ∃ j, i = t.render.length + j := ⟨i - t.render.length, by omega⟩
        rw [List.drop_append j]
        exact ih (fun x hx => hF x (by simp [hx])) j

/-- `hasMatchB` is false when the matcher fails at every suffix. -/
theorem hasMatchB_eq_false {m : List Char → Option Nat} {s : List Char}
    (h : ∀ i, m (s.drop i) = none) : hasMatchB m s = false := by
  induction s with
  | nil =>
      have h0 := h 0
      rw [List.drop_nil] at h0
      show (m []).isSome = false
      rw [h0]
      rfl
  | cons c cs ih =>
      have h0 := h 0
      rw [List.drop_zero] at h0
      show ((m (c :: cs)).isSome || hasMatchB m cs) = false
      rw [h0, Option.isSome_none, Bool.false_or]
      exact ih fun i => h (i + 1)

/-- In the rendering of a stream of final tokens, every DECSTBM match is
exactly the compositor's `setScrollRegion 1 n`. -/
theorem decstbm_take_finalToks (n : Nat) :
    ∀ ts : List VtTok, (∀ t ∈ ts, FinalTok n t) →
      ∀ i k, decstbmMatcher ((renderAll ts).drop i) = some k →
        ((renderAll ts).drop i).take k = setScrollRegion 1 n := by
  intro ts
  induction ts with
  | nil =>
      intro _ i k h
      rw [renderAll_nil, List.drop_nil] at h
      have hNil : decstbmMatcher [] = none := by decide
      rw [hNil] at h
      exact Option.noConfusion h
  | cons t rest ih =>
      intro hF i k h
      rw [renderAll_cons] at h ⊢
      rcases Nat.lt_or_ge i t.render.length with hlt | hge
      · rw [List.drop_append_of_le_length (le_of_lt hlt)] at h ⊢
        rcases hF t (by simp) with ⟨s, rfl, hs⟩ | rfl
        · rw [show (VtTok.text s).render = s from rfl] at h
          rw [matcher_none_inside decstbmMatcher_ne_esc hs (renderAll rest) i hlt] at h
          exact Option.noConfusion h
        · have hrend : (VtTok.decstbm (natChars 1) (natChars n)).render =
              '\x1b' :: '[' :: (natChars 1 ++ ';' :: (natChars n ++ ['r'])) := rfl
          cases i with
          | zero =>
              rw [List.drop_zero] at h ⊢
              rw [hrend] at h ⊢
              rw [decstbmMatcher_at_decstbm (renderAll rest) (natChars_digits 1)
                (natChars_digits n)] at h
              obtain rfl := Option.some_inj.mp h
              rw [List.take_left' rfl, ← hrend]
              exact compositor_render n
          | succ j =>
              have hbody : NoEsc ('[' :: (natChars 1 ++ ';' :: (natChars n ++ ['r']))) :=
                noEsc_decstbm_body (natChars_digits 1) (natChars_digits n)
              have hlen : (VtTok.decstbm (natChars 1) (natChars n)).render.length =
                  ('[' :: (natChars 1 ++ ';' :: (natChars n ++ ['r']))).length + 1 := rfl
              have hj : j < ('[' :: (natChars 1 ++ ';' :: (natChars n ++ ['r']))).length := by
                omega
              rw [hrend, List.drop_succ_cons] at h
              rw [matcher_none_inside decstbmMatcher_ne_esc hbody (renderAll rest) j hj] at h
              exact Option.noConfusion h
      · obtain ⟨j, rfl⟩ : ∃ j, i = t.render.length + j := ⟨i - t.render.length, by omega⟩
        rw [List.drop_append j] at h ⊢
        exact ih (fun x hx => hF x (by simp [hx])) j k h

/-- C1 (amended): on every atomic escape-sequence stream — a byte stream in
which each ESC begins a complete, well-formed sequence of one of the
filtered kinds — `writePassthrough` emits no alternate-screen toggle, no
Kitty keyboard sequence, no DSR cursor-position report, no device-attributes
query and no focus-reporting toggle, and every DECSTBM scroll-region
sequence in its output is exactly the compositor's `setScrollRegion 1
innerRows`; in particular `"X\x1b[?1049hY\x1b[?1049lZ"` yields `"XYZ"`.
(On arbitrary byte streams the claim is false: the sequential replacements
can splice new escape sequences, see the counterexample.) -/
theorem writePassthrough_filters (n : Nat) (ts : List VtTok)
    (hwf : ∀ t ∈ ts, t.wf) :
    hasMatchB altMatcher (writePassthrough n (renderAll ts)) = false ∧
    hasMatchB kittyMatcher (writePassthrough n (renderAll ts)) = false ∧
    hasMatchB dsrMatcher (writePassthrough n (renderAll ts)) = false ∧
    hasMatchB daMatcher (writePassthrough n (renderAll ts)) = false ∧
    hasMatchB focusMatcher (writePassthrough n (renderAll ts)) = false ∧
    (∀ i k, decstbmMatcher ((writePassthrough n (renderAll ts)).drop i) = some k →
      ((writePassthrough n (renderAll ts)).drop i).take k = setScrollRegion 1 n) ∧
    writePassthrough n "X\x1b[?1049hY\x1b[?1049lZ".data = "XYZ".data := by
  have hpipe := writePassthrough_tokens n ts hwf
  have hfin : ∀ t ∈ ts.flatMap (pipeTok n), FinalTok n t := by
    intro t' ht'
    obtain ⟨t, ht, htf⟩ := List.mem_flatMap.mp ht'
    exact pipeTok_final n t (hwf t ht) t' htf
  rw [hpipe]
  refine ⟨?_, ?_, ?_, ?_, ?_, ?_, ?_⟩
  · exact hasMatchB_eq_false (matcher_none_finalToks n altMatcher_ne_esc (by decide)
      (fun u => altMatcher_none_decstbm u (natChars_digits 1)) _ hfin)
  · exact hasMatchB_eq_false (matcher_none_finalToks n kittyMatcher_ne_esc (by decide)
      (fun u => kittyMatcher_none_decstbm u (natChars_digits 1)) _ hfin)
  · exact hasMatchB_eq_false (matcher_none_finalToks n dsrMatcher_ne_esc (by decide)
      (fun u => dsrMatcher_none_decstbm u (natChars_digits 1)) _ hfin)
  · exact hasMatchB_eq_false (matcher_none_finalToks n daMatcher_ne_esc (by decide)
      (fun u => daMatcher_none_decstbm u (natChars_digits 1)) _ hfin)
  · exact hasMatchB_eq_false (matcher_none_finalToks n focusMatcher_ne_esc (by decide)
      (fun u => focusMatcher_none_decstbm u (natChars_digits 1)) _ hfin)
  · exact decstbm_take_finalToks n _ hfin
  · have hx : "X\x1b[?1049hY\x1b[?1049lZ".data =
        renderAll [VtTok.text ['X'], VtTok.altScreen 1049 true, VtTok.text ['Y'],
          VtTok.altScreen 1049 false, VtTok.text ['Z']] := by decide
    rw [hx, writePassthrough_tokens n _ ?hw]
    case hw =>
      intro t ht
      simp only [List.mem_cons, List.not_mem_nil, or_false] at ht
      rcases ht with rfl | rfl | rfl | rfl | rfl
      · exact (by decide : NoEsc ['X'])
      · exact .inl rfl
      · exact (by decide : NoEsc ['Y'])
      · exact .inl rfl
      · exact (by decide : NoEsc ['Z'])
    rfl

/-- Witness for the amended C1 at a concrete stream that exercises every
token kind, with 24 inner rows. -/
theorem writePassthrough_filters_witness :
    hasMatchB altMatcher (writePassthrough 24 (renderAll
      [VtTok.text ['X'], VtTok.altScreen 1049 true, VtTok.kitty ['1'],
       VtTok.dsr, VtTok.da (some '>'), VtTok.focus true,
       VtTok.decstbm ['5'] ['1', '0'], VtTok.text ['Y']])) = false ∧
    writePassthrough 24 "X\x1b[?1049hY\x1b[?1049lZ".data = "XYZ".data := by
  have h := writePassthrough_filters 24
    [VtTok.text ['X'], VtTok.altScreen 1049 true, VtTok.kitty ['1'],
     VtTok.dsr, VtTok.da (some '>'), VtTok.focus true,
     VtTok.decstbm ['5'] ['1', '0'], VtTok.text ['Y']]
    (by
      intro t ht
      simp only [List.mem_cons, List.not_mem_nil, or_false] at ht
      rcases ht with rfl | rfl | rfl | rfl | rfl | rfl | rfl | rfl
      · exact (by decide : NoEsc ['X'])
      · exact .inl rfl
      · exact (by decide : ∀ c ∈ ['1'], isParamChar c = true)
      · exact trivial
      · exact .inr (.inl rfl)
      · exact trivial
      · exact ⟨by decide, by decide⟩
      · exact (by decide : NoEsc ['Y']))
  exact ⟨h.1, h.2.2.2.2.2.2⟩

end Hydra
